import Mathlib

/-!
Verification of the supply-chain spreadsheet extraction engine (`app.py`).

The extraction engine operates over an untyped 2-D cell grid obtained from
the first sheet of an uploaded spreadsheet (decoded externally).  Cells are
modelled as a tagged value (`Cell`): missing/NaN, numeric, text, or a native
date value.  Spreadsheet numbers are modelled as decimal values `m / 10^e`
with an integer mantissa and a decimal exponent, which matches what the
pandas decoder hands the engine for spreadsheet numerals and makes the
engine's integer/decimal string rendering exact.

Python string primitives used by the engine (`strip`, `lower`, substring
`in`, `startswith`, `splitlines`, `float(...)`, `str(...)` of numbers and
dates) are modelled by explicit character-list functions below.

An extractor that can raise a Python `IndexError` (out-of-range `row[j+1]`
or `df.iat[r, c]`) is modelled in the `Option` monad: `none` is the raised
exception, `some` the normal return.
-/

/-! ### Python string primitives -/

/-- ASCII decimal digit test, modelling Python's `str.isdigit` on the ASCII
digits that appear in spreadsheet values. -/
def pyIsDigit (c : Char) : Bool :=
  decide (c ∈ ['0', '1', '2', '3', '4', '5', '6', '7', '8', '9'])

/-- Lower-casing of a single character (ASCII), modelling Python `str.lower`. -/
def lowerChar (c : Char) : Char :=
  if c.isUpper then Char.ofNat (c.toNat + 32) else c

/-- Lower-casing of a string, modelling Python `str.lower`. -/
def lowerStr (s : String) : String := ⟨s.toList.map lowerChar⟩

/-- Drop characters satisfying `p` from both ends of a character list. -/
def stripListBoth (p : Char → Bool) (l : List Char) : List Char :=
  ((l.dropWhile p).reverse.dropWhile p).reverse

/-- Drop characters satisfying `p` from both ends of a string
(the engine uses it for Python `str.strip()` and `str.strip("()")`). -/
def stripBoth (p : Char → Bool) (s : String) : String := ⟨stripListBoth p s.toList⟩

/-- Whitespace test used by `str.strip()`. -/
def wsChar (c : Char) : Bool := c.isWhitespace

/-- Python `str.strip()` (no argument): remove surrounding whitespace. -/
def pyStrip (s : String) : String := stripBoth wsChar s

/-- `listPre n h` decides whether `n` is an initial segment of `h`. -/
def listPre : List Char → List Char → Bool
  | [], _ => true
  | _ :: _, [] => false
  | a :: as, b :: bs => a = b && listPre as bs

/-- `listSub n h` decides whether `n` occurs contiguously inside `h`. -/
def listSub (n : List Char) : List Char → Bool
  | [] => listPre n []
  | c :: t => listPre n (c :: t) || listSub n t

/-- Python substring test `needle in hay`. -/
def subStr (needle hay : String) : Bool := listSub needle.toList hay.toList

/-- Python `hay.startswith(pre)`. -/
def strStarts (hay pre : String) : Bool := listPre pre.toList hay.toList

/-- Split a character list at newline characters (segments, in order). -/
def splitOnNl : List Char → List (List Char)
  | [] => [[]]
  | c :: t =>
    if c = '\n' then [] :: splitOnNl t
    else
      match splitOnNl t with
      | [] => [[c]]
      | s :: rest => (c :: s) :: rest

/-! ### Decimal rendering (Python `str` of numbers) -/

/-- Digit recursion with explicit fuel (any fuel bounding the digit count
gives the digits; `natDigits` supplies `n + 1`, always sufficient). -/
def natDigitsAux : Nat → Nat → List Char
  | 0, _ => []
  | fuel + 1, n =>
    if n < 10 then [Char.ofNat (48 + n)]
    else natDigitsAux fuel (n / 10) ++ [Char.ofNat (48 + n % 10)]

/-- The decimal digit characters of a natural number, most significant first. -/
def natDigits (n : Nat) : List Char := natDigitsAux (n + 1) n

/-- Decimal digit characters of an integer, with a leading minus sign. -/
def intChars (i : Int) : List Char :=
  if i < 0 then '-' :: natDigits i.natAbs else natDigits i.natAbs

/-- Python `str` of an integer. -/
def intStr (i : Int) : String := ⟨intChars i⟩

/-- Remove trailing decimal zeros from a mantissa/exponent pair
(`reduceDec m e` represents the same value `m / 10^e` in lowest decimal form). -/
def reduceDec (m : Int) : Nat → Int × Nat
  | 0 => (m, 0)
  | e + 1 => if m % 10 = 0 then reduceDec (m / 10) e else (m, e + 1)

/-- Character rendering of the decimal value `m / 10^e` as Python renders a
float: no exponent form, a `.0` tail for integral values. -/
def floatChars (m : Int) (e : Nat) : List Char :=
  let p := reduceDec m e
  if p.2 = 0 then intChars p.1 ++ ['.', '0']
  else
    let ds := natDigits p.1.natAbs
    let padded := if ds.length ≤ p.2 then List.replicate (p.2 + 1 - ds.length) '0' ++ ds else ds
    let ip := padded.take (padded.length - p.2)
    let fp := padded.drop (padded.length - p.2)
    (if p.1 < 0 then ['-'] else []) ++ ip ++ ['.'] ++ fp

/-- Python `str` of the float value `m / 10^e`. -/
def floatStr (m : Int) (e : Nat) : String := ⟨floatChars m e⟩

/-! ### Cells, dates and grids -/

/-- A native date value as the decoder hands it to the engine (midnight
timestamps; the engine only ever formats the date part). -/
structure PyDate where
  y : Nat
  m : Nat
  d : Nat
deriving DecidableEq, Repr

/-- Zero-padded decimal rendering of a natural number to at least `k` digits. -/
def natPadChars (k n : Nat) : List Char :=
  let ds := natDigits n
  List.replicate (k - ds.length) '0' ++ ds

/-- The character list of `strftime("%Y-%m-%d")`. -/
def dateChars (d : PyDate) : List Char :=
  natPadChars 4 d.y ++ ['-'] ++ natPadChars 2 d.m ++ ['-'] ++ natPadChars 2 d.d

/-- `strftime("%Y-%m-%d")` of a native date value. -/
def dateFmt (d : PyDate) : String := ⟨dateChars d⟩

/-- One spreadsheet cell: missing/NaN, a decimal number `m / 10^e`, text, or
a native date value. -/
inductive Cell where
  | empty : Cell
  | num : Int → Nat → Cell
  | text : String → Cell
  | date : PyDate → Cell
deriving DecidableEq, Repr

/-- The rational value of a numeric cell `num m e`. -/
def decVal (m : Int) (e : Nat) : ℚ := mkRat m (10 ^ e)

/-- Python `str(...)` of a cell value (`str` of a float, of a midnight
timestamp, or the text itself; `str(nan)` for a missing value, which the
engine only ever applies behind `pd.notna` guards). -/
def pyStr : Cell → String
  | Cell.empty => "nan"
  | Cell.num m e => floatStr m e
  | Cell.text s => s
  | Cell.date d => dateFmt d ++ " 00:00:00"

/-- The decoded sheet: a rectangular matrix of cells with
`nrows`/`ncols`, as pandas exposes it through `shape`, `iloc` and `iat`. -/
structure Grid where
  nrows : Nat
  ncols : Nat
  cell : Nat → Nat → Cell

/-- Build a grid from a rectangular list of rows. -/
def Grid.ofLists (l : List (List Cell)) : Grid where
  nrows := l.length
  ncols := ((l.head?).map List.length).getD 0
  cell := fun r c => (((l.get? r).bind fun row => row.get? c)).getD Cell.empty

/-- `df.iat[r, c]`: `none` models the `IndexError` raised out of range. -/
def Grid.iat (g : Grid) (r c : Nat) : Option Cell :=
  if r < g.nrows ∧ c < g.ncols then some (g.cell r c) else none

/-- `list(df.iloc[i])`: row `i` as a list (used for `i < nrows` only). -/
def Grid.row (g : Grid) (i : Nat) : List Cell :=
  (List.range g.ncols).map (g.cell i)

/-! ### `normalize_percent` -/

/-- The natural number denoted by a list of decimal digit characters. -/
def digitsVal (l : List Char) : Nat :=
  l.foldl (fun a c => a * 10 + (c.toNat - 48)) 0

/-- Python `float(s)` on the plain decimal literals that reach the engine:
optional surrounding whitespace and sign, digits with an optional single
decimal point.  The result is the parsed value as a decimal
mantissa/exponent pair; `none` models the raised `ValueError`. -/
def pyFloat? (s : String) : Option (Int × Nat) :=
  let l := stripListBoth wsChar s.toList
  let sp : Bool × List Char :=
    match l with
    | '-' :: r => (true, r)
    | '+' :: r => (false, r)
    | r => (false, r)
  let ip := sp.2.takeWhile (fun c => c ≠ '.')
  let rest := sp.2.drop ip.length
  if ip.all pyIsDigit then
    match rest with
    | [] =>
      if ip.isEmpty then none
      else some (if sp.1 then -(digitsVal ip : Int) else (digitsVal ip : Int), 0)
    | '.' :: fp =>
      if fp.all pyIsDigit && !(ip.isEmpty && fp.isEmpty) then
        let mag : Int := digitsVal ip * 10 ^ fp.length + digitsVal fp
        some (if sp.1 then -mag else mag, fp.length)
      else none
    | _ => none
  else none

/-- `normalize_percent` (app.py:129-154): convert spreadsheet percent values
to a 0–100 float, or `none`.  A text value is stripped of whitespace and of
every `%` character (`str.replace("%", "")`) and parsed as a float; a
numeric value in `[0, 1]` is scaled by 100, any other numeric value is
returned as-is; a missing value, an unparseable text, and a date value
(whose `float(...)` raises, caught to `None`) give `none`. -/
def normalize_percent : Cell → Option ℚ
  | Cell.empty => none
  | Cell.text s =>
    let t : String := ⟨(pyStrip s).toList.filter (fun c => c ≠ '%')⟩
    if t = "" then none else (pyFloat? t).map fun p => decVal p.1 p.2
  | Cell.num m e =>
    if 0 ≤ decVal m e ∧ decVal m e ≤ 1 then some (decVal m e * 100) else some (decVal m e)
  | Cell.date _ => none

/-- The claim's reading of `normalize_percent` on text: strip surrounding
whitespace, remove one *trailing* `%` only, then parse as a float.  Stated
from the claim's words for comparison against the source definition. -/
def normalize_percent_claim : Cell → Option ℚ
  | Cell.empty => none
  | Cell.text s =>
    let t := pyStrip s
    let t2 : String :=
      if t.toList.getLast? = some '%' then ⟨t.toList.dropLast⟩ else t
    if t2 = "" then none else (pyFloat? t2).map fun p => decVal p.1 p.2
  | Cell.num m e =>
    if 0 ≤ decVal m e ∧ decVal m e ≤ 1 then some (decVal m e * 100) else some (decVal m e)
  | Cell.date _ => none

/-- The amended description of `normalize_percent` on text: strip
whitespace, remove *every* `%` character, then parse as a float (`none` for
the empty remainder or an unparseable remainder). -/
def normalize_percent_amended : Cell → Option ℚ
  | Cell.empty => none
  | Cell.text s =>
    let t : String := ⟨(pyStrip s).toList.filter (fun c => c ≠ '%')⟩
    if t = "" then none else (pyFloat? t).map fun p => decVal p.1 p.2
  | Cell.num m e =>
    if 0 ≤ decVal m e ∧ decVal m e ≤ 1 then some (decVal m e * 100) else some (decVal m e)
  | Cell.date _ => none

/-! ### Header extractor (`get_header`, app.py:102-124) -/

/-- The parsed header: one optional raw cell per labelled field.  `none`
means the key is absent from the Python dict (never null-filled). -/
structure Header where
  vendor_number : Option Cell := none
  item : Option Cell := none
  item_number : Option Cell := none
  ship_date : Option Cell := none
  po_quantity : Option Cell := none
deriving DecidableEq, Repr

/-- The five label tokens `get_header` scans for, in the order the code
tests them within a row. -/
def headerLabels : List String :=
  ["Vendor Number", "Item", "Item Number", "Ship Date:", "PO Quantity:"]

/-- `row[row.index(L) + 1]` behind the membership test `L in row`:
`some (some v)` = label found with `v` to its right, `some none` = label not
in the row, `none` = the `IndexError` raised when the label occupies the
last column. -/
def readRight (row : List Cell) (L : String) : Option (Option Cell) :=
  if Cell.text L ∈ row then (row.get? (row.indexOf (Cell.text L) + 1)).map some
  else some none

/-- Record a found value into one header field. -/
def setField (h : Header) (upd : Header → Cell → Header) : Option Cell → Header
  | some v => upd h v
  | none => h

/-- Process one row of `get_header`'s scan: the five `if` statements in
order; `Item` is read and recorded only when the `item` key is not set. -/
def headerStep (row : List Cell) (h : Header) : Option Header :=
  match readRight row "Vendor Number" with
  | none => none
  | some v1 =>
    let h1 := setField h (fun h v => { h with vendor_number := some v }) v1
    match (if h1.item = none then readRight row "Item" else some none) with
    | none => none
    | some v2 =>
      let h2 := setField h1 (fun h v => { h with item := some v }) v2
      match readRight row "Item Number" with
      | none => none
      | some v3 =>
        let h3 := setField h2 (fun h v => { h with item_number := some v }) v3
        match readRight row "Ship Date:" with
        | none => none
        | some v4 =>
          let h4 := setField h3 (fun h v => { h with ship_date := some v }) v4
          match readRight row "PO Quantity:" with
          | none => none
          | some v5 => some (setField h4 (fun h v => { h with po_quantity := some v }) v5)

/-- The row loop of `get_header` over a list of row indices. -/
def headerGo (g : Grid) : List Nat → Header → Option Header
  | [], h => some h
  | i :: rest, h =>
    match headerStep (g.row i) h with
    | none => none
    | some h2 => headerGo g rest h2

/-- Final `ship_date` conversion: a native date value is replaced by its
`YYYY-MM-DD` string. -/
def shipConv : Cell → Cell
  | Cell.date d => Cell.text (dateFmt d)
  | c => c

/-- `get_header` (app.py:102-124): scan every row for the five label
tokens, record the cell to the right of each occurrence, and convert a
native `ship_date` to `YYYY-MM-DD`.  `none` models the `IndexError` raised
when a processed label occupies the last column. -/
def get_header (g : Grid) : Option Header :=
  (headerGo g (List.range g.nrows) {}).map fun h =>
    { h with ship_date := h.ship_date.map shipConv }

/-- Value to the right of the label occurrence in the *first* listed row
that contains the label (in-row position: leftmost occurrence). -/
def firstFrom (g : Grid) (L : String) : List Nat → Option Cell
  | [] => none
  | i :: rest =>
    match readRight (g.row i) L with
    | some (some v) => some v
    | _ => firstFrom g L rest

/-- Value to the right of the label occurrence in the *last* listed row
that contains the label, defaulting to `acc`. -/
def lastFrom (g : Grid) (L : String) : List Nat → Option Cell → Option Cell
  | [], acc => acc
  | i :: rest, acc =>
    lastFrom g L rest
      (match readRight (g.row i) L with
        | some (some v) => some v
        | _ => acc)

/-- Value next to the first-row occurrence of a label (top-to-bottom scan). -/
def firstLabelVal (g : Grid) (L : String) : Option Cell :=
  firstFrom g L (List.range g.nrows)

/-- Value next to the last-row occurrence of a label (top-to-bottom scan,
later rows overwriting earlier ones). -/
def lastLabelVal (g : Grid) (L : String) : Option Cell :=
  lastFrom g L (List.range g.nrows) none

/-! ### Component breakdown extractor (`get_components`, app.py:157-247) -/

/-- A material component row. -/
structure Component where
  name : String
  percent : Option ℚ
  origin : Option String
  remarks : Option String
deriving DecidableEq, Repr

/-- Cell at `(r, c)` when `c` is in range, else the Python `None` of the
guarded reads (`df.iat[r, c] if c < df.shape[1] else None`), merged with
NaN into `Cell.empty`. -/
def cellOr (g : Grid) (r c : Nat) : Cell :=
  if c < g.ncols then g.cell r c else Cell.empty

/-- `str(x).strip() if pd.notna(x) else None`. -/
def strOpt : Cell → Option String
  | Cell.empty => none
  | c => some (pyStrip (pyStr c))

/-- The blank test stopping Format A's data rows: `None`, NaN, or
whitespace-only text. -/
def blankName : Cell → Bool
  | Cell.empty => true
  | Cell.text s => pyStrip s = ""
  | _ => false

/-- One Format A data row at `(r, j..j+3)`. -/
def compA (g : Grid) (j r : Nat) : Component where
  name := pyStrip (pyStr (g.cell r j))
  percent := normalize_percent (cellOr g r (j + 1))
  origin := strOpt (cellOr g r (j + 2))
  remarks := strOpt (cellOr g r (j + 3))

/-- The row indices strictly below row `i`, to the bottom of the grid. -/
def rowsBelow (g : Grid) (i : Nat) : List Nat :=
  List.range' (i + 1) (g.nrows - (i + 1))

/-- Format A data rows below the label: read the listed consecutive rows,
stopping at the first blank name cell. -/
def readACells (g : Grid) (j : Nat) : List Nat → List Component
  | [] => []
  | k :: rest =>
    if blankName (g.cell k j) then []
    else compA g j k :: readACells g j rest

/-- Format A scan down the listed rows: find a row containing the exact
cell `Component Breakdown`; parse the rows beneath it; a label row that
yields no components leaves the accumulator empty and the scan continues. -/
def formatAscan (g : Grid) : List Nat → List Component
  | [] => []
  | i :: rest =>
    if Cell.text "Component Breakdown" ∈ g.row i then
      let j := (g.row i).indexOf (Cell.text "Component Breakdown")
      let comps := readACells g j (rowsBelow g i)
      if comps.isEmpty then formatAscan g rest else comps
    else formatAscan g rest

/-- First column of the row whose text contains `Major Fabric Breakdown`. -/
def findBcol (row : List Cell) : Option Nat :=
  row.findIdx? fun c =>
    match c with
    | Cell.text s => subStr "Major Fabric Breakdown" s
    | _ => false

/-- Companion label columns of Format B's header row `i` to the right of
the name column: a label equal to or ending in `%`, a label starting with
`origin`, a label starting with `remarks` (later columns overwrite). -/
def scanBlabels (g : Grid) (i hcol : Nat) : Option Nat × Option Nat × Option Nat :=
  (List.range' (hcol + 1) (g.ncols - (hcol + 1))).foldl
    (fun acc c =>
      match g.cell i c with
      | Cell.text label =>
        let t := lowerStr (pyStrip label)
        if t = "%" ∨ (t.toList.getLast? = some '%') then (some c, acc.2.1, acc.2.2)
        else if strStarts t "origin" then (acc.1, some c, acc.2.2)
        else if strStarts t "remarks" then (acc.1, acc.2.1, some c)
        else acc
      | _ => acc)
    (none, none, none)

/-- One Format B data row. -/
def compB (g : Grid) (r : Nat) (name : String) (pc oc rc : Option Nat) : Component where
  name := pyStrip name
  percent := normalize_percent (match pc with | some c => g.cell r c | none => Cell.empty)
  origin := strOpt (match oc with | some c => g.cell r c | none => Cell.empty)
  remarks := strOpt (match rc with | some c => g.cell r c | none => Cell.empty)

/-- Format B data rows down the listed rows: stop at a name cell that is
not non-blank text. -/
def readBCells (g : Grid) (j : Nat) (pc oc rc : Option Nat) : List Nat → List Component
  | [] => []
  | k :: rest =>
    match g.cell k j with
    | Cell.text s =>
      if pyStrip s = "" then []
      else compB g k s pc oc rc :: readBCells g j pc oc rc rest
    | _ => []

/-- Format B scan down the listed rows: only the first header-row match is
processed (the loop breaks after it). -/
def formatBscan (g : Grid) : List Nat → List Component
  | [] => []
  | i :: rest =>
    match findBcol (g.row i) with
    | some hcol =>
      let cols := scanBlabels g i hcol
      readBCells g hcol cols.1 cols.2.1 cols.2.2 (rowsBelow g i)
    | none => formatBscan g rest

/-- `get_components` (app.py:157-247): Format A (vertical
`Component Breakdown`) first; if it produced no components, Format B
(horizontal `Major Fabric Breakdown`). -/
def get_components (g : Grid) : List Component :=
  let a := formatAscan g (List.range g.nrows)
  if a.isEmpty then formatBscan g (List.range g.nrows) else a

/-! ### Node flow extractor (`get_nodes`, app.py:268-484) -/

/-- One trading-party document-group node. -/
structure Node where
  group : String
  material : Option String
  left_type : Option String
  left_party : Option String
  right_type : Option String
  right_party : Option String
  date : String
  quantity : String
  remarks : Option String
  documents : List String
deriving DecidableEq, Repr

/-- `_clean`: strip a string, `None` for anything blank or non-text. -/
def cleanCell : Cell → Option String
  | Cell.text s => if pyStrip s = "" then none else some (pyStrip s)
  | _ => none

/-- `_combine`: join company name and location, skipping a name that is
already a substring of the location. -/
def combine (name loc : Cell) : Option String :=
  match cleanCell name, cleanCell loc with
  | some n, some l => if subStr n l then some l else some (n ++ ", " ++ l)
  | some n, none => some n
  | none, some l => some l
  | none, none => none

/-- `_looks_like_quantity`: the lowered text contains a unit word, or
(fallback) any digit. -/
def looksLikeQuantity (s : String) : Bool :=
  let t := lowerStr s
  (["kg", "kilogram", "metric ton", "metric tons", "mt",
    "bale", "bales", "tons", "ton"].any fun u => subStr u t) ||
  t.toList.any pyIsDigit

/-- `_looks_like_date` (duplicated in `get_nodes` and
`get_detail_blocks`): a native date value, or non-blank text containing a
digit and one of `/` `-`. -/
def looksLikeDate : Cell → Bool
  | Cell.date _ => true
  | Cell.text v =>
    let s := pyStrip v
    s ≠ "" && s.toList.any pyIsDigit && s.toList.any (fun c => c = '/' || c = '-')
  | _ => false

/-- Candidate columns of `nearest_value` in search order: the column
itself, then `+1`, then `-1`, kept when in `[0, ncols)`. -/
def nearestCols (g : Grid) (c : Nat) : List Nat :=
  ([c, c + 1] ++ if 1 ≤ c then [c - 1] else []).filter (· < g.ncols)

/-- The candidate loop of `nearest_value`: first non-empty hit wins; a
non-string non-NaN value is rendered with `str`.  Outer `none` models the
`IndexError` when the fixed row is out of range. -/
def nearestGo (g : Grid) (r : Nat) : List Nat → Option (Option String)
  | [] => some none
  | c :: rest =>
    match g.iat r c with
    | none => none
    | some v =>
      match v with
      | Cell.text s => if pyStrip s ≠ "" then some (some (pyStrip s)) else nearestGo g r rest
      | Cell.empty => nearestGo g r rest
      | v => some (some (pyStr v))

/-- `nearest_value` (app.py:251-265) with `window=1`. -/
def nearest_value (g : Grid) (r c : Nat) : Option (Option String) :=
  nearestGo g r (nearestCols g c)

/-- Date-search candidate columns, in code order `col, col-1, col+1`,
bounds-checked. -/
def dateCols (g : Grid) (col : Nat) : List Nat :=
  ([col] ++ (if 1 ≤ col then [col - 1] else []) ++ [col + 1]).filter (· < g.ncols)

/-- One row of the date search: first hit across the candidate columns — a
native date formatted `YYYY-MM-DD`, or date-like text, stripped. -/
def dateInRow (g : Grid) (r : Nat) : List Nat → Option String
  | [] => none
  | c :: rest =>
    match g.cell r c with
    | Cell.date d => some (dateFmt d)
    | v => if looksLikeDate v then some (pyStrip (pyStr v)) else dateInRow g r rest

/-- The row loop of the date search: a row's hit is kept when it differs
from the sentinel, else the scan continues. -/
def searchDateGo (g : Grid) (col : Nat) : List Nat → String
  | [] => "none"
  | r :: rest =>
    match dateInRow g r (dateCols g col) with
    | some s => if s ≠ "none" then s else searchDateGo g col rest
    | none => searchDateGo g col rest

/-- The date resolution of `get_nodes` (app.py:396-412): a 3-row window
over rows `[16, min(19, nrows))`, columns `col, col-1, col+1` per row. -/
def searchDate (g : Grid) (col : Nat) : String :=
  searchDateGo g col (List.range' 16 (min (16 + 3) g.nrows - 16))

/-- The quantity rendering of `get_nodes` (app.py:362-376): an integral
number as a plain integer string, another number as its decimal string,
text containing a digit stripped, else the sentinel. -/
def renderQtyCell : Cell → String
  | Cell.num m e =>
    if ((10 : Int) ^ e ∣ m) then intStr (m / (10 : Int) ^ e) else floatStr m e
  | Cell.text s =>
    if pyStrip s ≠ "" && s.toList.any pyIsDigit then pyStrip s else "none"
  | _ => "none"

/-- The raw quantity cell of an anchor column:
`df.iat[17, col] if 17 < nrows else None`. -/
def qtyRaw (g : Grid) (col : Nat) : Cell :=
  if 17 < g.nrows then g.cell 17 col else Cell.empty

/-- The document lines of one cell: a non-blank text cell is split at
newlines into stripped non-blank parts, anything else contributes none. -/
def cellParts : Cell → List String
  | Cell.text s =>
    if pyStrip s ≠ "" then
      ((splitOnNl s.toList).map fun l => pyStrip ⟨l⟩).filter (fun x => x ≠ "")
    else []
  | _ => []

/-- The row loop of the document collection, over the listed rows. -/
def docsGo (g : Grid) (col : Nat) : List Nat → Option (List String)
  | [] => some []
  | r :: rows =>
    match g.iat r col with
    | none => none
    | some v =>
      match docsGo g col rows with
      | none => none
      | some rest => some (cellParts v ++ rest)

/-- The document collection of `get_nodes` (app.py:422-430): rows 18..27. -/
def docsRead (g : Grid) (col : Nat) : Option (List String) :=
  docsGo g col (List.range' 18 10)

/-- The pure tail of one `get_nodes` iteration: the two date fix-up blocks
(app.py:414-418 and 436-448), the quantity promotion fallback
(app.py:452-456), and the node record itself, from the values read off the
grid. -/
def assembleNode (label : String) (material lt rt : Cell) (lp rp : Option String)
    (rem0 : Option String) (rawQty : Cell) (d0 : String) (docs0 : List String) : Node :=
  let q0 := renderQtyCell rawQty
  -- first fix-up: a date string longer than 40 characters becomes remarks
  let rem1 := if 40 < d0.length then (if rem0 = none then some d0 else rem0) else rem0
  let d1 := if 40 < d0.length then "none" else d0
  -- second fix-up: re-strip, and also catch the "goods are shipped" phrase
  let s := pyStrip d1
  let fire := s ≠ "" && (subStr "goods are shipped" (lowerStr s) || decide (40 < s.length))
  let rem2 := if fire then (if rem1 = none then some s else rem1) else rem1
  let d2 := if fire then "none" else d1
  -- quantity promotion fallback
  let promo := (q0 == "" || lowerStr (pyStrip q0) == "none") &&
    !docs0.isEmpty && looksLikeQuantity (docs0.headD "")
  let q1 := if promo then docs0.headD "" else q0
  let docs1 := if promo then docs0.tail else docs0
  { group := label
    material := cleanCell material
    left_type := cleanCell lt
    left_party := lp
    right_type := cleanCell rt
    right_party := rp
    date := d2
    quantity := q1
    remarks := rem2
    documents := docs1 }

/-- The left box of one iteration: chained from the previous right box when
the previous right party is truthy, else read from the column left of the
anchor (rows 11, 12, 13; Python `None` when the anchor is in column 0).
`none` models the `IndexError` of the unguarded row-12/13 reads. -/
def leftBox (g : Grid) (col : Nat) (pt : Cell) (pp : Option String) :
    Option (Cell × Option String) :=
  if pp.isSome then some (pt, pp)
  else if col = 0 then some (Cell.empty, none)
  else
    match g.iat 12 (col - 1), g.iat 13 (col - 1) with
    | some ln, some ll => some (g.cell 11 (col - 1), combine ln ll)
    | _, _ => none

/-- The right box of one iteration: read from the column right of the
anchor when it exists (rows 11, 12, 13), Python `None` otherwise. -/
def rightBox (g : Grid) (col : Nat) : Option (Cell × Option String) :=
  if col + 1 < g.ncols then
    match g.iat 12 (col + 1), g.iat 13 (col + 1) with
    | some rn, some rl => some (g.cell 11 (col + 1), combine rn rl)
    | _, _ => none
  else some (Cell.empty, none)

/-- One iteration of the `get_nodes` anchor loop: the node together with
the chaining state handed to the next iteration (the raw right-box type
cell and the combined right party). -/
def buildNode (g : Grid) (col : Nat) (label : String) (pt : Cell) (pp : Option String) :
    Option (Node × Cell × Option String) :=
  match leftBox g col pt pp, rightBox g col, nearest_value g 15 col, docsRead g col with
  | some lb, some rb, some rem0, some docs0 =>
    some (assembleNode label (g.cell 9 col) lb.1 rb.1 lb.2 rb.2 rem0 (qtyRaw g col)
            (searchDate g col) docs0, rb.1, rb.2)
  | _, _, _, _ => none

/-- The anchor scan of `get_nodes` (app.py:325-328): cells of row 11 whose
text starts with `Document Group`, left to right.  The very first `iat`
read raises when the grid has at most 11 rows and at least one column. -/
def anchorScan (g : Grid) : Option (List (Nat × String)) :=
  if g.ncols = 0 then some []
  else if g.nrows ≤ 11 then none
  else some ((List.range g.ncols).filterMap fun j =>
    match g.cell 11 j with
    | Cell.text s => if strStarts s "Document Group" then some (j, s) else none
    | _ => none)

/-- The anchor loop of `get_nodes`, threading the chaining state. -/
def nodesGo (g : Grid) : List (Nat × String) → Cell → Option String → Option (List Node)
  | [], _, _ => some []
  | (col, label) :: rest, pt, pp =>
    match buildNode g col label pt pp with
    | none => none
    | some step =>
      match nodesGo g rest step.2.1 step.2.2 with
      | none => none
      | some ns => some (step.1 :: ns)

/-- `get_nodes` (app.py:268-484): parse the horizontal document-group
flow. -/
def get_nodes (g : Grid) : Option (List Node) :=
  match anchorScan g with
  | none => none
  | some anchors => nodesGo g anchors Cell.empty none

/-! ### Detail block extractor (`get_detail_blocks`, app.py:487-595) -/

/-- One parenthesized-role evidence block.  `name` and `location` hold the
raw cell values one and two rows below the title (out-of-range reads give
the Python `None`, merged with NaN into `Cell.empty`). -/
structure DetailBlock where
  type : String
  name : Cell
  location : Cell
  date : String
  doc_title : Option String
  documents : List String
deriving DecidableEq, Repr

/-- Whether a stripped cell text fully matches the title pattern
`^\(.+?\)$`: an opening parenthesis, at least one character none of which
is a newline, a closing parenthesis. -/
def isTitle (s : String) : Bool :=
  match s.toList with
  | '(' :: rest =>
    match rest.getLast? with
    | some ')' => !rest.dropLast.isEmpty && rest.dropLast.all (fun c => c ≠ '\n')
    | _ => false
  | _ => false

/-- Python `str.strip("()")`: drop parenthesis characters from both ends. -/
def stripParens (s : String) : String := stripBoth (fun c => c = '(' || c = ')') s

/-- The date rows scanned for a block titled at `row`:
`[row+4, min(row+9, nrows))`. -/
def detailDateRows (g : Grid) (row : Nat) : List Nat :=
  (List.range' (row + 4) 5).filter (· < g.nrows)

/-- The date search of a detail block: first native date (formatted) or
date-like text (stripped) down the title column; sentinel otherwise. -/
def detailDateGo (g : Grid) (col : Nat) : List Nat → String
  | [] => "none"
  | r :: rest =>
    match g.cell r col with
    | Cell.date d => dateFmt d
    | v => if looksLikeDate v then pyStrip (pyStr v) else detailDateGo g col rest

/-- The column slice of cells from row `r` to the bottom of the grid. -/
def colSliceFrom (g : Grid) (col r : Nat) : List Cell :=
  (List.range' r (g.nrows - r)).map fun i => g.cell i col

/-- The blank-skipping phase of the document scan: drop cells until the
first non-blank text cell. -/
def skipBlanksIdx : List Cell → List Cell
  | [] => []
  | c :: rest =>
    match c with
    | Cell.text s => if pyStrip s ≠ "" then Cell.text s :: rest else skipBlanksIdx rest
    | _ => skipBlanksIdx rest

/-- The collection phase of the document scan: consecutive non-blank text
cells; the first line containing `record` (case-insensitive) while no title
is set becomes the title, every other line is appended to the documents. -/
def collectGo : List Cell → Option String → List String → Option String × List String
  | [], t, ds => (t, ds)
  | c :: rest, t, ds =>
    match c with
    | Cell.text s =>
      if pyStrip s = "" then (t, ds)
      else if t.isNone && subStr "record" (lowerStr (pyStrip s)) then
        collectGo rest (some (pyStrip s)) ds
      else collectGo rest t (ds ++ [pyStrip s])
    | _ => (t, ds)

/-- Title and documents of a block titled at `(row, col)`: skip blanks from
row `row+5`, then collect until a blank. -/
def collectDocs (g : Grid) (col row : Nat) : Option String × List String :=
  collectGo (skipBlanksIdx (colSliceFrom g col (row + 5))) none []

/-- The block candidate at `(row, col)`: `none` when the cell is not a
title or the block is discarded as empty. -/
def detailAt (g : Grid) (col row : Nat) : Option DetailBlock :=
  match g.cell row col with
  | Cell.text cs =>
    let raw := pyStrip cs
    if isTitle raw then
      let p := collectDocs g col row
      -- retroactive fallback (app.py:574-578)
      let q :=
        match p.1, p.2 with
        | none, d :: rest => if subStr "record" (lowerStr d) then (some d, rest) else (none, d :: rest)
        | t, ds => (t, ds)
      if q.1 = none ∧ q.2 = [] then none
      else some
        { type := pyStrip (stripParens raw)
          name := (g.iat (row + 1) col).getD Cell.empty
          location := (g.iat (row + 2) col).getD Cell.empty
          date := detailDateGo g col (detailDateRows g row)
          doc_title := q.1
          documents := q.2 }
    else none
  | _ => none

/-- `get_detail_blocks` (app.py:487-595): column-major scan over the whole
grid, collecting the non-discarded block candidates. -/
def get_detail_blocks (g : Grid) : List DetailBlock :=
  ((List.range g.ncols).map fun col =>
    (List.range g.nrows).filterMap fun row => detailAt g col row).flatten

/-- `detailAt` with the retroactive title fallback removed — the comparison
point of the refinement claim. -/
def detailAtNoFb (g : Grid) (col row : Nat) : Option DetailBlock :=
  match g.cell row col with
  | Cell.text cs =>
    let raw := pyStrip cs
    if isTitle raw then
      let p := collectDocs g col row
      if p.1 = none ∧ p.2 = [] then none
      else some
        { type := pyStrip (stripParens raw)
          name := (g.iat (row + 1) col).getD Cell.empty
          location := (g.iat (row + 2) col).getD Cell.empty
          date := detailDateGo g col (detailDateRows g row)
          doc_title := p.1
          documents := p.2 }
    else none
  | _ => none

/-- `get_detail_blocks` with the retroactive title fallback removed. -/
def get_detail_blocks_nofb (g : Grid) : List DetailBlock :=
  ((List.range g.ncols).map fun col =>
    (List.range g.nrows).filterMap fun row => detailAtNoFb g col row).flatten

/-! ### Orchestrator (`parse_supply_chain_excel`, app.py:601-607) -/

/-- `parse_supply_chain_excel` on the decoded grid: the four extractors in
sequence over the same grid; an extractor's exception propagates. -/
def parse_supply_chain_excel (g : Grid) :
    Option (Header × List Component × List Node × List DetailBlock) :=
  match get_header g with
  | none => none
  | some h =>
    match get_nodes g with
    | none => none
    | some n => some (h, get_components g, n, get_detail_blocks g)

/-! ### Derived notions used by the claims -/

/-- The condition under which a resolved node date string is demoted to a
narrative remark: longer than 40 characters, or containing the phrase
`goods are shipped` (tested on the stripped, lowered string, as the code
does). -/
def dateNarrative (s : String) : Bool :=
  decide (40 < s.length) || subStr "goods are shipped" (lowerStr (pyStrip s))

/-- The text that the demotion moves into `remarks`: the resolved string
itself for the over-length case, its stripped form for the phrase case. -/
def narrativeText (s : String) : String :=
  if 40 < s.length then s else pyStrip s

/-- Whether promotion of the first document line into the quantity fires:
the rendered quantity is the sentinel, and the first document line is
quantity-like. -/
def promoSpec (q : String) (docs : List String) : Bool :=
  q == "none" && !docs.isEmpty && looksLikeQuantity (docs.headD "")

/-- Whether a cell value is a string or a null (the shape the spec declares
for a DetailBlock's `name` and `location`). -/
def cellIsStrOrNull : Cell → Bool
  | Cell.text _ => true
  | Cell.empty => true
  | _ => false

/-- The ten decimal digit characters. -/
def decimalChars : List Char := ['0', '1', '2', '3', '4', '5', '6', '7', '8', '9']

/-! ### Concrete grids for counterexamples and witnesses -/

/-- A 28-row, 6-column grid with two `Document Group` anchors at columns 1
and 5: the first anchor's right box (column 2) is blank, while the second
anchor's own left box (column 4) carries data. -/
def cexC1grid : Grid := Grid.ofLists (
  (List.range 11).map (fun _ => List.replicate 6 Cell.empty) ++
  [[Cell.empty, Cell.text "Document Group 1", Cell.empty, Cell.empty,
    Cell.text "Supplier", Cell.text "Document Group 2"]] ++
  [[Cell.empty, Cell.empty, Cell.empty, Cell.empty, Cell.text "ABC", Cell.empty]] ++
  [[Cell.empty, Cell.empty, Cell.empty, Cell.empty, Cell.text "X City", Cell.empty]] ++
  (List.range 14).map (fun _ => List.replicate 6 Cell.empty))

/-- The first node `get_nodes` produces on `cexC1grid`. -/
def cexC1node0 : Node :=
  ⟨"Document Group 1", none, none, none, none, none, "none", "none", none, []⟩

/-- The second node `get_nodes` produces on `cexC1grid`. -/
def cexC1node1 : Node :=
  ⟨"Document Group 2", none, some "Supplier", some "ABC, X City", none, none,
    "none", "none", none, []⟩

/-- A 28-row, 4-column grid with two adjacent anchors at columns 1 and 3
whose shared middle column 2 carries right-box data for the first anchor. -/
def wC1grid : Grid := Grid.ofLists (
  (List.range 11).map (fun _ => List.replicate 4 Cell.empty) ++
  [[Cell.empty, Cell.text "Document Group 1", Cell.text "Mill",
    Cell.text "Document Group 2"]] ++
  [[Cell.empty, Cell.empty, Cell.text "Beta", Cell.empty]] ++
  [[Cell.empty, Cell.empty, Cell.text "Y", Cell.empty]] ++
  (List.range 14).map (fun _ => List.replicate 4 Cell.empty))

/-- The first node `get_nodes` produces on `wC1grid`. -/
def wC1node0 : Node :=
  ⟨"Document Group 1", none, none, none, some "Mill", some "Beta, Y",
    "none", "none", none, []⟩

/-- The second node `get_nodes` produces on `wC1grid`. -/
def wC1node1 : Node :=
  ⟨"Document Group 2", none, some "Mill", some "Beta, Y", none, none,
    "none", "none", none, []⟩

/-- A one-cell grid whose only cell is a header label in the last column. -/
def cexC2grid : Grid := Grid.ofLists [[Cell.text "Vendor Number"]]

/-- A 28-row, 1-column grid of empty cells. -/
def wC2grid : Grid := Grid.ofLists ((List.range 28).map fun _ => [Cell.empty])

/-- A grid whose `Vendor Number` label occurs in two rows with different
values to its right, and whose `Item` label likewise occurs twice. -/
def cexC3grid : Grid := Grid.ofLists [
  [Cell.text "Vendor Number", Cell.text "A"],
  [Cell.text "Vendor Number", Cell.text "B"],
  [Cell.text "Item", Cell.text "I1"],
  [Cell.text "Item", Cell.text "I2"]]

/-- The header `get_header` produces on `cexC3grid`. -/
def cexC3hdr : Header :=
  ⟨some (Cell.text "B"), some (Cell.text "I1"), none, none, none⟩

/-- A one-column grid with a detail block whose name cell holds the
number 5 and whose document region holds one non-`record` line. -/
def cexC4grid : Grid := Grid.ofLists
  [[Cell.text "(Manufacturer)"], [Cell.num 5 0], [Cell.empty], [Cell.empty],
   [Cell.empty], [Cell.text "Packing List"]]

/-- The detail block `get_detail_blocks` produces on `cexC4grid`. -/
def cexC4block : DetailBlock :=
  ⟨"Manufacturer", Cell.num 5 0, Cell.empty, "none", none, ["Packing List"]⟩

/-- A 28-row, 3-column grid with one anchor at column 1 and a native date
value in the date row. -/
def wC7grid : Grid := Grid.ofLists (
  (List.range 11).map (fun _ => List.replicate 3 Cell.empty) ++
  [[Cell.empty, Cell.text "Document Group 1", Cell.empty]] ++
  (List.range 4).map (fun _ => List.replicate 3 Cell.empty) ++
  [[Cell.empty, Cell.date ⟨2024, 1, 5⟩, Cell.empty]] ++
  (List.range 11).map (fun _ => List.replicate 3 Cell.empty))

/-- The node `get_nodes` produces on `wC7grid`. -/
def wC7node : Node :=
  ⟨"Document Group 1", none, none, none, none, none, "2024-01-05", "none", none, []⟩

/-- A 28-row, 2-column grid with one anchor at column 1 and the text
`" 92 kg "` (with surrounding blanks) in the quantity row. -/
def cexC8grid : Grid := Grid.ofLists (
  (List.range 11).map (fun _ => [Cell.empty, Cell.empty]) ++
  [[Cell.empty, Cell.text "Document Group 1"]] ++
  (List.range 5).map (fun _ => [Cell.empty, Cell.empty]) ++
  [[Cell.empty, Cell.text " 92 kg "]] ++
  (List.range 10).map (fun _ => [Cell.empty, Cell.empty]))

/-- The node `get_nodes` produces on `cexC8grid`. -/
def cexC8node : Node :=
  ⟨"Document Group 1", none, none, none, none, none, "none", "92 kg", none, []⟩

/-! ### Helper lemmas: strings and characters -/

theorem strMk_toList (l : List Char) : (String.mk l).toList = l := rfl

theorem strMk_eq_empty_iff (l : List Char) : (String.mk l) = "" ↔ l = [] := by
  constructor
  · intro h
    have : (String.mk l).data = ("" : String).data := by rw [h]
    simpa using this
  · intro h; rw [h]

theorem stripListBoth_eq_rdrop (p : Char → Bool) (l : List Char) :
    stripListBoth p l = List.rdropWhile p (List.dropWhile p l) := rfl

theorem mem_dropWhile_of_not (p : Char → Bool) (l : List Char) (c : Char)
    (hc : c ∈ l) (hp : p c = false) : c ∈ List.dropWhile p l := by
  induction l with
  | nil => cases hc
  | cons a t ih =>
    by_cases ha : p a
    · rw [List.dropWhile_cons_of_pos ha]
      rcases List.mem_cons.mp hc with h | h
      · subst h; rw [hp] at ha; cases ha
      · exact ih h
    · rw [List.dropWhile_cons_of_neg ha]; exact hc

theorem mem_stripListBoth (p : Char → Bool) (l : List Char) (c : Char)
    (hc : c ∈ l) (hp : p c = false) : c ∈ stripListBoth p l := by
  unfold stripListBoth
  rw [List.mem_reverse]
  apply mem_dropWhile_of_not p _ c _ hp
  rw [List.mem_reverse]
  exact mem_dropWhile_of_not p l c hc hp

theorem stripListBoth_length_le (p : Char → Bool) (l : List Char) :
    (stripListBoth p l).length ≤ l.length := by
  unfold stripListBoth
  rw [List.length_reverse]
  calc ((l.dropWhile p).reverse.dropWhile p).length
      ≤ (l.dropWhile p).reverse.length := (List.dropWhile_suffix p).length_le
    _ = (l.dropWhile p).length := List.length_reverse _
    _ ≤ l.length := (List.dropWhile_suffix p).length_le

theorem stripListBoth_idem (p : Char → Bool) (l : List Char) :
    stripListBoth p (stripListBoth p l) = stripListBoth p l := by
  rw [stripListBoth_eq_rdrop, stripListBoth_eq_rdrop]
  have h1 : List.dropWhile p (List.rdropWhile p (List.dropWhile p l)) =
      List.rdropWhile p (List.dropWhile p l) := by
    rw [List.dropWhile_eq_self_iff]
    intro hl
    have hpre := List.rdropWhile_prefix p (l := List.dropWhile p l)
    have hlen : 0 < (List.dropWhile p l).length :=
      lt_of_lt_of_le hl hpre.length_le
    have hget := List.dropWhile_get_zero_not p l hlen
    have heq : (List.rdropWhile p (List.dropWhile p l)).get ⟨0, hl⟩ =
        (List.dropWhile p l).get ⟨0, hlen⟩ := by
      simp only [List.get_eq_getElem]
      exact hpre.getElem hl
    rw [heq]
    exact hget
  rw [h1, List.rdropWhile_idempotent]

theorem stripListBoth_eq_self (p : Char → Bool) (l : List Char)
    (h : ∀ c ∈ l, p c = false) : stripListBoth p l = l := by
  rw [stripListBoth_eq_rdrop]
  have h1 : List.dropWhile p l = l := by
    cases l with
    | nil => rfl
    | cons a t => exact List.dropWhile_cons_of_neg (by simp [h a (List.mem_cons_self a t)])
  rw [h1, List.rdropWhile_eq_self_iff]
  intro hl
  simp [h _ (List.getLast_mem hl)]

theorem pyStrip_toList (s : String) : (pyStrip s).toList = stripListBoth wsChar s.toList := rfl

theorem pyStrip_idem (s : String) : pyStrip (pyStrip s) = pyStrip s := by
  show String.mk (stripListBoth wsChar (pyStrip s).toList) = pyStrip s
  rw [pyStrip_toList, stripListBoth_idem]
  rfl

theorem pyStrip_length_le (s : String) : (pyStrip s).length ≤ s.length := by
  show (String.mk (stripListBoth wsChar s.toList)).length ≤ s.length
  have h1 : (String.mk (stripListBoth wsChar s.toList)).length =
      (stripListBoth wsChar s.toList).length := rfl
  have h2 : s.length = s.toList.length := rfl
  rw [h1, h2]
  exact stripListBoth_length_le _ _

theorem pyStrip_empty : pyStrip "" = "" := rfl

theorem lowerStr_toList (s : String) : (lowerStr s).toList = s.toList.map lowerChar := rfl

theorem lowerStr_empty_iff (s : String) : lowerStr s = "" ↔ s = "" := by
  constructor
  · intro h
    have := congrArg String.toList h
    rw [lowerStr_toList] at this
    simp at this
    cases s with
    | mk l => simp [strMk_eq_empty_iff]; exact this
  · intro h; rw [h]; rfl

theorem subStr_empty_hay (needle : String) (h : needle ≠ "") : subStr needle "" = false := by
  unfold subStr listSub
  cases hn : needle.toList with
  | nil =>
    exfalso
    apply h
    cases needle with
    | mk l => simpa [strMk_eq_empty_iff] using hn
  | cons a t => rfl

/-! ### Helper lemmas: digit characters and number renderings -/

theorem natDigitsAux_mem (fuel n : Nat) : ∀ c ∈ natDigitsAux fuel n, c ∈ decimalChars := by
  induction fuel generalizing n with
  | zero => intro c hc; cases hc
  | succ fuel ih =>
    intro c hc
    unfold natDigitsAux at hc
    by_cases h : n < 10
    · rw [if_pos h] at hc
      rcases List.mem_singleton.mp hc with rfl
      interval_cases n <;> decide
    · rw [if_neg h] at hc
      rcases List.mem_append.mp hc with h1 | h1
      · exact ih _ c h1
      · rcases List.mem_singleton.mp h1 with rfl
        have hk : n % 10 < 10 := Nat.mod_lt _ (by omega)
        set k := n % 10 with hkdef
        interval_cases k <;> decide

theorem natDigits_mem (n : Nat) : ∀ c ∈ natDigits n, c ∈ decimalChars :=
  natDigitsAux_mem (n + 1) n

theorem natDigitsAux_ne_nil (fuel n : Nat) : natDigitsAux (fuel + 1) n ≠ [] := by
  unfold natDigitsAux
  by_cases h : n < 10
  · rw [if_pos h]; simp
  · rw [if_neg h]; simp

theorem natDigits_ne_nil (n : Nat) : natDigits n ≠ [] := natDigitsAux_ne_nil n n

theorem decChar_not_ws (c : Char) (h : c ∈ decimalChars) : wsChar c = false := by
  fin_cases h <;> decide

theorem decChar_lower (c : Char) (h : c ∈ decimalChars) : lowerChar c = c := by
  fin_cases h <;> decide

theorem decChar_not_in_none (c : Char) (h : c ∈ decimalChars) :
    lowerChar c ∉ ("none" : String).toList := by
  fin_cases h <;> decide

theorem pyIsDigit_mem (c : Char) (h : pyIsDigit c = true) : c ∈ decimalChars :=
  of_decide_eq_true h

theorem intChars_ne_nil (i : Int) : intChars i ≠ [] := by
  unfold intChars
  by_cases h : i < 0
  · rw [if_pos h]; simp
  · rw [if_neg h]; exact natDigits_ne_nil _

theorem intStr_ne_empty (i : Int) : intStr i ≠ "" := by
  unfold intStr
  rw [ne_eq, strMk_eq_empty_iff]
  exact intChars_ne_nil i

theorem floatChars_ne_nil (m : Int) (e : Nat) : floatChars m e ≠ [] := by
  unfold floatChars
  by_cases h : (reduceDec m e).2 = 0
  · simp only [h, if_pos rfl]
    simp [intChars_ne_nil]
  · simp only [if_neg h]
    simp

theorem floatStr_ne_empty (m : Int) (e : Nat) : floatStr m e ≠ "" := by
  unfold floatStr
  rw [ne_eq, strMk_eq_empty_iff]
  exact floatChars_ne_nil m e

/-- Some digit character occurs in `intChars i`. -/
theorem intChars_has_digit (i : Int) : ∃ c ∈ intChars i, c ∈ decimalChars := by
  obtain ⟨c, hc⟩ := List.exists_mem_of_ne_nil _ (natDigits_ne_nil i.natAbs)
  refine ⟨c, ?_, natDigits_mem _ c hc⟩
  unfold intChars
  by_cases h : i < 0
  · rw [if_pos h]; exact List.mem_cons_of_mem _ hc
  · rw [if_neg h]; exact hc

/-- The dot character occurs in any `floatChars m e`. -/
theorem floatChars_has_dot (m : Int) (e : Nat) : '.' ∈ floatChars m e := by
  unfold floatChars
  by_cases h : (reduceDec m e).2 = 0
  · simp only [h, if_pos rfl]
    simp
  · simp only [if_neg h]
    simp

/-! ### Claim C5: `normalize_percent` -/

/-- C5 (corrected): `normalize_percent` returns null for a missing or
unparseable input; a text input is stripped of whitespace and of *every*
`%` character (not only a trailing one) and parsed as a float (null when
not parseable, including the empty string); a numeric input in `[0, 1]` is
multiplied by 100 and any other numeric input is returned as-is; and
`normalize_percent(0.82) = 82`, `normalize_percent(45) = 45`,
`normalize_percent("20%") = 20`, `normalize_percent("") = null`,
`normalize_percent(None) = null`. -/
theorem C5_percent_amended :
    (∀ c, normalize_percent c = normalize_percent_amended c) ∧
    normalize_percent (Cell.num 82 2) = some 82 ∧
    normalize_percent (Cell.num 45 0) = some 45 ∧
    normalize_percent (Cell.text "20%") = some 20 ∧
    normalize_percent (Cell.text "") = none ∧
    normalize_percent Cell.empty = none := by
  refine ⟨fun c => rfl, ?_, ?_, ?_, rfl, rfl⟩
  · show (if 0 ≤ decVal 82 2 ∧ decVal 82 2 ≤ 1 then some (decVal 82 2 * 100)
        else some (decVal 82 2)) = some 82
    norm_num [decVal, Rat.mkRat_eq_div]
  · show (if 0 ≤ decVal 45 0 ∧ decVal 45 0 ≤ 1 then some (decVal 45 0 * 100)
        else some (decVal 45 0)) = some 45
    norm_num [decVal, Rat.mkRat_eq_div]
  · rw [show normalize_percent (Cell.text "20%") = some (decVal 20 0) from rfl]
    norm_num [decVal, Rat.mkRat_eq_div]

/-- C5 counterexample: on the text `"5%5"` the code removes every `%` and
parses `55.0`, while the claim's "strip a trailing `%`" reading parses
nothing and returns null — the claim's description differs from the code
at this input. -/
theorem C5_percent_counterexample :
    normalize_percent (Cell.text "5%5") = some 55 ∧
    normalize_percent_claim (Cell.text "5%5") = none ∧
    normalize_percent (Cell.text "5%5") ≠ normalize_percent_claim (Cell.text "5%5") := by
  have h : normalize_percent (Cell.text "5%5") = some (decVal 55 0) := rfl
  have h55 : decVal 55 0 = 55 := by norm_num [decVal, Rat.mkRat_eq_div]
  refine ⟨by rw [h, h55], rfl, ?_⟩
  rw [h, show normalize_percent_claim (Cell.text "5%5") = none from rfl]
  simp

/-! ### Claim C9: determinism -/

/-- C9 (confirmed): the engine is a pure function of the input grid — the
orchestrator and each individual extractor return equal results on equal
grids, with no state carried between invocations. -/
theorem C9_deterministic (g g2 : Grid) (h : g = g2) :
    parse_supply_chain_excel g = parse_supply_chain_excel g2 ∧
    get_header g = get_header g2 ∧
    get_components g = get_components g2 ∧
    get_nodes g = get_nodes g2 ∧
    get_detail_blocks g = get_detail_blocks g2 := by
  subst h
  exact ⟨rfl, rfl, rfl, rfl, rfl⟩

/-- Witness for C9 at a concrete grid. -/
theorem C9_deterministic_witness :
    cexC4grid = cexC4grid ∧
    (parse_supply_chain_excel cexC4grid = parse_supply_chain_excel cexC4grid ∧
      get_header cexC4grid = get_header cexC4grid ∧
      get_components cexC4grid = get_components cexC4grid ∧
      get_nodes cexC4grid = get_nodes cexC4grid ∧
      get_detail_blocks cexC4grid = get_detail_blocks cexC4grid) :=
  ⟨rfl, C9_deterministic cexC4grid cexC4grid rfl⟩

/-! ### Claim C6: component extractor ordering -/

/-- C6 (confirmed): `get_components` tries Format A before Format B and
returns the Format A components exactly when Format A yielded at least one
(the other format is then not consulted); and the Format A data read is the
longest prefix of consecutive rows below the label whose name cell is not
blank — it terminates at the first blank name cell. -/
theorem C6_components_order (g : Grid) :
    (get_components g =
      if (formatAscan g (List.range g.nrows)).isEmpty
      then formatBscan g (List.range g.nrows)
      else formatAscan g (List.range g.nrows)) ∧
    (∀ j rows, readACells g j rows =
      (rows.takeWhile fun r => !(blankName (g.cell r j))).map (compA g j)) := by
  refine ⟨rfl, fun j rows => ?_⟩
  induction rows with
  | nil => rfl
  | cons k rest ih =>
    by_cases h : blankName (g.cell k j)
    · simp [readACells, List.takeWhile_cons, h]
    · simp [readACells, List.takeWhile_cons, h, ih]

/-! ### Claim C10: the retroactive title fallback is dead code -/

theorem collectGo_fst_of_some (cells : List Cell) (y : String) (ds : List String) :
    (collectGo cells (some y) ds).1 = some y := by
  induction cells generalizing ds with
  | nil => rfl
  | cons c rest ih =>
    cases c with
    | text s =>
      by_cases hb : pyStrip s = ""
      · simp [collectGo, hb]
      · simp [collectGo, hb]
        exact ih _
    | empty => rfl
    | num m e => rfl
    | date d => rfl

theorem collectGo_none_no_record (cells : List Cell) (ds : List String)
    (hds : ∀ x ∈ ds, subStr "record" (lowerStr x) = false)
    (hres : (collectGo cells none ds).1 = none) :
    ∀ x ∈ (collectGo cells none ds).2, subStr "record" (lowerStr x) = false := by
  induction cells generalizing ds with
  | nil => exact hds
  | cons c rest ih =>
    cases c with
    | text s =>
      by_cases hb : pyStrip s = ""
      · simp only [collectGo, hb, if_pos rfl] at hres ⊢
        exact hds
      · by_cases hr : subStr "record" (lowerStr (pyStrip s)) = true
        · exfalso
          have hres2 : (collectGo rest (some (pyStrip s)) ds).1 = none := by
            simpa [collectGo, hb, hr] using hres
          rw [collectGo_fst_of_some] at hres2
          cases hres2
        · have hr' : subStr "record" (lowerStr (pyStrip s)) = false := by
            simpa using hr
          simp only [collectGo, hb, if_neg hb, Option.isNone_none, hr', Bool.true_and,
            Bool.false_eq_true, if_false] at hres ⊢
          apply ih
          · intro x hx
            rcases List.mem_append.mp hx with h1 | h1
            · exact hds x h1
            · rcases List.mem_singleton.mp h1 with rfl
              exact hr'
          · exact hres
    | empty => exact hds
    | num m e => exact hds
    | date d => exact hds

theorem detailAt_eq_nofb (g : Grid) (col row : Nat) :
    detailAt g col row = detailAtNoFb g col row := by
  unfold detailAt detailAtNoFb
  cases hc : g.cell row col with
  | text cs =>
    by_cases ht : isTitle (pyStrip cs)
    · simp only [ht, if_true]
      have hq : (match (collectDocs g col row).1, (collectDocs g col row).2 with
          | none, d :: rest =>
            if subStr "record" (lowerStr d) then (some d, rest) else (none, d :: rest)
          | t, ds => (t, ds)) = collectDocs g col row := by
        rcases hp : collectDocs g col row with ⟨t, ds⟩
        cases t with
        | some y => rfl
        | none =>
          cases ds with
          | nil => rfl
          | cons d rest =>
            have hnr : subStr "record" (lowerStr d) = false := by
              have h1 : (collectGo (skipBlanksIdx (colSliceFrom g col (row + 5))) none []).1
                  = none := by
                rw [show collectGo (skipBlanksIdx (colSliceFrom g col (row + 5))) none []
                    = collectDocs g col row from rfl, hp]
              have h2 := collectGo_none_no_record
                (skipBlanksIdx (colSliceFrom g col (row + 5))) [] (by intro x hx; cases hx) h1
              apply h2
              rw [show collectGo (skipBlanksIdx (colSliceFrom g col (row + 5))) none []
                  = collectDocs g col row from rfl, hp]
              exact List.mem_cons_self d rest
            simp [hnr]
      rw [hq]
    · simp [ht]
  | empty => rfl
  | num m e => rfl
  | date d => rfl

/-- C10 (confirmed): the retroactive `doc_title` fallback never changes the
result — whenever the collection loop ends with no title, no collected line
contains `record`, so `get_detail_blocks` with the fallback removed is
extensionally equal to `get_detail_blocks` as written. -/
theorem C10_fallback_equiv : ∀ g : Grid, get_detail_blocks g = get_detail_blocks_nofb g := by
  intro g
  unfold get_detail_blocks get_detail_blocks_nofb
  simp only [detailAt_eq_nofb]

/-! ### Claim C2: which extractors can raise -/

theorem row_length (g : Grid) (i : Nat) : (g.row i).length = g.ncols := by
  simp [Grid.row]

theorem readRight_isSome (row : List Cell) (L : String)
    (h : Cell.text L ∈ row → row.indexOf (Cell.text L) + 1 < row.length) :
    (readRight row L).isSome := by
  unfold readRight
  split
  · next hm =>
    rw [List.get?_eq_get (h hm)]
    simp
  · simp

theorem headerStep_isSome (row : List Cell) (hd : Header)
    (h : ∀ L ∈ headerLabels, Cell.text L ∈ row → row.indexOf (Cell.text L) + 1 < row.length) :
    (headerStep row hd).isSome := by
  obtain ⟨v1, e1⟩ := Option.isSome_iff_exists.mp
    (readRight_isSome row "Vendor Number" (h _ (by simp [headerLabels])))
  obtain ⟨v2, e2⟩ := Option.isSome_iff_exists.mp
    (readRight_isSome row "Item" (h _ (by simp [headerLabels])))
  obtain ⟨v3, e3⟩ := Option.isSome_iff_exists.mp
    (readRight_isSome row "Item Number" (h _ (by simp [headerLabels])))
  obtain ⟨v4, e4⟩ := Option.isSome_iff_exists.mp
    (readRight_isSome row "Ship Date:" (h _ (by simp [headerLabels])))
  obtain ⟨v5, e5⟩ := Option.isSome_iff_exists.mp
    (readRight_isSome row "PO Quantity:" (h _ (by simp [headerLabels])))
  by_cases hi : (setField hd (fun h v => { h with vendor_number := some v }) v1).item = none <;>
    simp [headerStep, e1, e2, e3, e4, e5, hi]

theorem headerGo_isSome (g : Grid) (rows : List Nat) (hd : Header)
    (h : ∀ i ∈ rows, ∀ L ∈ headerLabels, Cell.text L ∈ g.row i →
      (g.row i).indexOf (Cell.text L) + 1 < (g.row i).length) :
    (headerGo g rows hd).isSome := by
  induction rows generalizing hd with
  | nil => simp [headerGo]
  | cons i rest ih =>
    obtain ⟨h2, e2⟩ := Option.isSome_iff_exists.mp
      (headerStep_isSome (g.row i) hd (h i (List.mem_cons_self _ _)))
    simp only [headerGo, e2]
    exact ih h2 (fun j hj => h j (List.mem_cons_of_mem _ hj))

theorem anchorScan_col_lt (g : Grid) (as : List (Nat × String))
    (h : anchorScan g = some as) : ∀ p ∈ as, p.1 < g.ncols := by
  unfold anchorScan at h
  by_cases h0 : g.ncols = 0
  · rw [if_pos h0] at h
    cases h
    intro p hp; cases hp
  · rw [if_neg h0] at h
    by_cases h1 : g.nrows ≤ 11
    · rw [if_pos h1] at h; cases h
    · rw [if_neg h1] at h
      cases h
      intro p hp
      obtain ⟨j, hj, hjp⟩ := List.mem_filterMap.mp hp
      have hjlt := List.mem_range.mp hj
      cases hcell : g.cell 11 j with
      | text s =>
        rw [hcell] at hjp
        by_cases hst : strStarts s "Document Group"
        · simp only [hst, if_pos rfl] at hjp
          cases hjp
          exact hjlt
        · simp [hst] at hjp
      | empty => rw [hcell] at hjp; cases hjp
      | num m e => rw [hcell] at hjp; cases hjp
      | date d => rw [hcell] at hjp; cases hjp

theorem iat_eq_some (g : Grid) (r c : Nat) (hr : r < g.nrows) (hc : c < g.ncols) :
    g.iat r c = some (g.cell r c) := by
  unfold Grid.iat
  rw [if_pos ⟨hr, hc⟩]

theorem nearestGo_isSome (g : Grid) (r : Nat) (cols : List Nat)
    (hr : r < g.nrows) (hc : ∀ c ∈ cols, c < g.ncols) : (nearestGo g r cols).isSome := by
  induction cols with
  | nil => simp [nearestGo]
  | cons c rest ih =>
    have he := iat_eq_some g r c hr (hc c (List.mem_cons_self _ _))
    have ih2 := ih (fun x hx => hc x (List.mem_cons_of_mem _ hx))
    cases hcell : g.cell r c with
    | text s =>
      rw [hcell] at he
      simp only [nearestGo, he]
      split
      · simp
      · exact ih2
    | empty => rw [hcell] at he; simp only [nearestGo, he]; exact ih2
    | num m e => rw [hcell] at he; simp only [nearestGo, he]; simp
    | date d => rw [hcell] at he; simp only [nearestGo, he]; simp

theorem nearest_value_isSome (g : Grid) (r c : Nat) (hr : r < g.nrows) :
    (nearest_value g r c).isSome := by
  unfold nearest_value
  apply nearestGo_isSome g r _ hr
  intro x hx
  exact of_decide_eq_true (List.mem_filter.mp hx).2

theorem docsGo_isSome (g : Grid) (col : Nat) (rows : List Nat)
    (hc : col < g.ncols) (hr : ∀ r ∈ rows, r < g.nrows) : (docsGo g col rows).isSome := by
  induction rows with
  | nil => simp [docsGo]
  | cons r rest ih =>
    have he := iat_eq_some g r col (hr r (List.mem_cons_self _ _)) hc
    obtain ⟨ds, eds⟩ := Option.isSome_iff_exists.mp
      (ih (fun x hx => hr x (List.mem_cons_of_mem _ hx)))
    simp [docsGo, he, eds]

theorem leftBox_isSome (g : Grid) (col : Nat) (pt : Cell) (pp : Option String)
    (h13 : 13 < g.nrows) (hc : col < g.ncols) : (leftBox g col pt pp).isSome := by
  unfold leftBox
  by_cases hp : pp.isSome
  · rw [if_pos hp]; simp
  · rw [if_neg hp]
    by_cases h0 : col = 0
    · rw [if_pos h0]; simp
    · rw [if_neg h0]
      have hcl : col - 1 < g.ncols := by omega
      rw [iat_eq_some g 12 (col - 1) (by omega) hcl, iat_eq_some g 13 (col - 1) h13 hcl]
      simp

theorem rightBox_isSome (g : Grid) (col : Nat) (h13 : 13 < g.nrows) :
    (rightBox g col).isSome := by
  unfold rightBox
  by_cases hc : col + 1 < g.ncols
  · rw [if_pos hc]
    rw [iat_eq_some g 12 (col + 1) (by omega) hc, iat_eq_some g 13 (col + 1) h13 hc]
    simp
  · rw [if_neg hc]; simp

theorem buildNode_isSome (g : Grid) (col : Nat) (label : String) (pt : Cell)
    (pp : Option String) (hn : 28 ≤ g.nrows) (hc : col < g.ncols) :
    (buildNode g col label pt pp).isSome := by
  obtain ⟨lb, elb⟩ := Option.isSome_iff_exists.mp
    (leftBox_isSome g col pt pp (by omega) hc)
  obtain ⟨rb, erb⟩ := Option.isSome_iff_exists.mp (rightBox_isSome g col (by omega))
  obtain ⟨rem0, erem⟩ := Option.isSome_iff_exists.mp
    (nearest_value_isSome g 15 col (by omega))
  obtain ⟨docs0, edocs⟩ := Option.isSome_iff_exists.mp
    (docsGo_isSome g col (List.range' 18 10) hc
      (fun r hrr => by
        have := List.mem_range'_1.mp hrr
        omega))
  unfold buildNode docsRead
  rw [elb, erb, erem, edocs]
  simp

theorem nodesGo_isSome (g : Grid) (as : List (Nat × String)) (pt : Cell)
    (pp : Option String) (hn : 28 ≤ g.nrows) (hc : ∀ p ∈ as, p.1 < g.ncols) :
    (nodesGo g as pt pp).isSome := by
  induction as generalizing pt pp with
  | nil => simp [nodesGo]
  | cons a rest ih =>
    obtain ⟨col, label⟩ := a
    obtain ⟨step, estep⟩ := Option.isSome_iff_exists.mp
      (buildNode_isSome g col label pt pp hn (hc _ (List.mem_cons_self _ _)))
    obtain ⟨ns, ens⟩ := Option.isSome_iff_exists.mp
      (ih step.2.1 step.2.2 (fun p hp => hc p (List.mem_cons_of_mem _ hp)))
    simp [nodesGo, estep, ens]

theorem get_nodes_isSome (g : Grid) (hN : g.ncols = 0 ∨ 28 ≤ g.nrows) :
    (get_nodes g).isSome := by
  unfold get_nodes
  rcases hN with h0 | h28
  · unfold anchorScan
    rw [if_pos h0]
    simp [nodesGo]
  · by_cases h0 : g.ncols = 0
    · unfold anchorScan
      rw [if_pos h0]
      simp [nodesGo]
    · have hscan : anchorScan g = some ((List.range g.ncols).filterMap fun j =>
          match g.cell 11 j with
          | Cell.text s => if strStarts s "Document Group" then some (j, s) else none
          | _ => none) := by
        unfold anchorScan
        rw [if_neg h0, if_neg (by omega)]
      rw [hscan]
      exact nodesGo_isSome g _ _ _ h28 (anchorScan_col_lt g _ hscan)

/-- C2 (corrected): the component and detail-block extractors always
return normally, and the header and node extractors return normally on
every grid *except* two out-of-range situations that raise an
`IndexError`: a header label sitting in the last column, and a grid with
at least one column but fewer rows than the node extractor's fixed layout
(anchor row 11, document rows up to 27).  Under those two premises the
header extractor, the node extractor, and the whole orchestrator return
normally; `get_components` and `get_detail_blocks` are total by
construction. -/
theorem C2_total_amended (g : Grid)
    (hH : ∀ i, i < g.nrows → ∀ L ∈ headerLabels, Cell.text L ∈ g.row i →
      (g.row i).indexOf (Cell.text L) + 1 < g.ncols)
    (hN : g.ncols = 0 ∨ 28 ≤ g.nrows) :
    (get_header g).isSome ∧ (get_nodes g).isSome ∧
      (parse_supply_chain_excel g).isSome := by
  have hh : (get_header g).isSome := by
    unfold get_header
    have := headerGo_isSome g (List.range g.nrows) {}
      (fun i hi L hL hm => by
        rw [row_length]
        exact hH i (List.mem_range.mp hi) L hL hm)
    obtain ⟨h2, e2⟩ := Option.isSome_iff_exists.mp this
    rw [e2]
    simp
  have hn : (get_nodes g).isSome := get_nodes_isSome g hN
  refine ⟨hh, hn, ?_⟩
  obtain ⟨hv, ehv⟩ := Option.isSome_iff_exists.mp hh
  obtain ⟨nv, ehn⟩ := Option.isSome_iff_exists.mp hn
  unfold parse_supply_chain_excel
  rw [ehv, ehn]
  simp

/-- C2 counterexample: a grid whose single cell is the label
`Vendor Number` in the last column makes the header extractor (and hence
the orchestrator) raise an `IndexError` — the claim that every extractor
returns normally on every grid is false. -/
theorem C2_total_counterexample :
    get_header cexC2grid = none ∧ parse_supply_chain_excel cexC2grid = none := by
  decide

/-- Witness for C2 at a concrete 28-row grid. -/
theorem C2_total_witness :
    (∀ i, i < wC2grid.nrows → ∀ L ∈ headerLabels, Cell.text L ∈ wC2grid.row i →
      (wC2grid.row i).indexOf (Cell.text L) + 1 < wC2grid.ncols) ∧
    (wC2grid.ncols = 0 ∨ 28 ≤ wC2grid.nrows) ∧
    ((get_header wC2grid).isSome ∧ (get_nodes wC2grid).isSome ∧
      (parse_supply_chain_excel wC2grid).isSome) :=
  ⟨by decide, by decide, C2_total_amended wC2grid (by decide) (by decide)⟩

/-! ### Claim C3: header scan overwrite semantics -/

theorem setField_item_vendor (hd : Header) (v : Option Cell) :
    (setField hd (fun h v => { h with vendor_number := some v }) v).item = hd.item := by
  cases v <;> rfl

theorem headerStep_fields (row : List Cell) (hd hmid : Header)
    (h : headerStep row hd = some hmid) :
    hmid.vendor_number = (match readRight row "Vendor Number" with
      | some (some v) => some v
      | _ => hd.vendor_number) ∧
    hmid.item = (if hd.item = none then
        (match readRight row "Item" with
          | some (some v) => some v
          | _ => none)
      else hd.item) ∧
    hmid.item_number = (match readRight row "Item Number" with
      | some (some v) => some v
      | _ => hd.item_number) ∧
    hmid.ship_date = (match readRight row "Ship Date:" with
      | some (some v) => some v
      | _ => hd.ship_date) ∧
    hmid.po_quantity = (match readRight row "PO Quantity:" with
      | some (some v) => some v
      | _ => hd.po_quantity) := by
  cases e1 : readRight row "Vendor Number" with
  | none => simp only [headerStep, e1] at h; exact Option.noConfusion h
  | some v1 =>
  simp only [headerStep, e1] at h
  by_cases hi : (setField hd (fun h v => { h with vendor_number := some v }) v1).item = none
  · rw [if_pos hi] at h
    have hi0 : hd.item = none := by rwa [setField_item_vendor] at hi
    cases e2 : readRight row "Item" with
    | none => simp only [e2] at h; exact Option.noConfusion h
    | some v2 =>
    simp only [e2] at h
    cases e3 : readRight row "Item Number" with
    | none => simp only [e3] at h; exact Option.noConfusion h
    | some v3 =>
    simp only [e3] at h
    cases e4 : readRight row "Ship Date:" with
    | none => simp only [e4] at h; exact Option.noConfusion h
    | some v4 =>
    simp only [e4] at h
    cases e5 : readRight row "PO Quantity:" with
    | none => simp only [e5] at h; exact Option.noConfusion h
    | some v5 =>
    simp only [e5] at h
    obtain rfl := Option.some.inj h
    rw [if_pos hi0]
    cases v1 <;> cases v2 <;> cases v3 <;> cases v4 <;> cases v5 <;>
      simp [setField, hi0]
  · rw [if_neg hi] at h
    have hi0 : ¬ hd.item = none := by rwa [setField_item_vendor] at hi
    simp only [] at h
    cases e3 : readRight row "Item Number" with
    | none => simp only [e3] at h; exact Option.noConfusion h
    | some v3 =>
    simp only [e3] at h
    cases e4 : readRight row "Ship Date:" with
    | none => simp only [e4] at h; exact Option.noConfusion h
    | some v4 =>
    simp only [e4] at h
    cases e5 : readRight row "PO Quantity:" with
    | none => simp only [e5] at h; exact Option.noConfusion h
    | some v5 =>
    simp only [e5] at h
    obtain rfl := Option.some.inj h
    rw [if_neg hi0]
    cases v1 <;> cases v3 <;> cases v4 <;> cases v5 <;>
      simp [setField]

theorem headerGo_fields (g : Grid) (rows : List Nat) (hd h2 : Header)
    (h : headerGo g rows hd = some h2) :
    h2.vendor_number = lastFrom g "Vendor Number" rows hd.vendor_number ∧
    h2.item = (if hd.item = none then firstFrom g "Item" rows else hd.item) ∧
    h2.item_number = lastFrom g "Item Number" rows hd.item_number ∧
    h2.ship_date = lastFrom g "Ship Date:" rows hd.ship_date ∧
    h2.po_quantity = lastFrom g "PO Quantity:" rows hd.po_quantity := by
  induction rows generalizing hd with
  | nil =>
    unfold headerGo at h
    obtain rfl := Option.some.inj h
    refine ⟨rfl, ?_, rfl, rfl, rfl⟩
    unfold firstFrom
    by_cases hi : hd.item = none
    · rw [if_pos hi]; exact hi
    · rw [if_neg hi]
  | cons i rest ih =>
    unfold headerGo at h
    cases estep : headerStep (g.row i) hd with
    | none => rw [estep] at h; exact Option.noConfusion h
    | some hmid =>
    have hrest : headerGo g rest hmid = some h2 := by rw [estep] at h; exact h
    obtain ⟨f1, f2, f3, f4, f5⟩ := headerStep_fields (g.row i) hd hmid estep
    obtain ⟨g1, g2, g3, g4, g5⟩ := ih hmid hrest
    refine ⟨?_, ?_, ?_, ?_, ?_⟩
    · rw [g1, f1]; rfl
    · by_cases hi : hd.item = none
      · have f2a : hmid.item = (match readRight (g.row i) "Item" with
            | some (some v) => some v
            | _ => none) := by rw [f2, if_pos hi]
        rw [g2, f2a, if_pos hi]
        cases e2 : readRight (g.row i) "Item" with
        | none => simp [firstFrom, e2]
        | some v2 => cases v2 <;> simp [firstFrom, e2]
      · have f2a : hmid.item = hd.item := by rw [f2, if_neg hi]
        rw [g2, f2a, if_neg hi, if_neg hi]
    · rw [g3, f3]; rfl
    · rw [g4, f4]; rfl
    · rw [g5, f5]; rfl

/-- C3 (corrected): when a header label token occurs in more than one row,
the header extractor records the value to the right of the occurrence in
the *last* such row found during the top-to-bottom scan — later rows
overwrite earlier ones (within a row, the leftmost occurrence is used) —
except for `Item`, which is recorded only when the `item` key is not
already set, so the *first* row wins for it; scanning continues across all
rows so fields found in different rows combine into one Header (`ship_date`
additionally converted from a native date to `YYYY-MM-DD`). -/
theorem C3_header_amended (g : Grid) (h2 : Header) (h : get_header g = some h2) :
    h2.vendor_number = lastLabelVal g "Vendor Number" ∧
    h2.item = firstLabelVal g "Item" ∧
    h2.item_number = lastLabelVal g "Item Number" ∧
    h2.ship_date = (lastLabelVal g "Ship Date:").map shipConv ∧
    h2.po_quantity = lastLabelVal g "PO Quantity:" := by
  unfold get_header at h
  cases ego : headerGo g (List.range g.nrows) {} with
  | none => rw [ego] at h; exact Option.noConfusion h
  | some hraw =>
    rw [ego, Option.map_some'] at h
    obtain rfl := Option.some.inj h
    obtain ⟨g1, g2, g3, g4, g5⟩ := headerGo_fields g (List.range g.nrows) {} hraw ego
    refine ⟨?_, ?_, ?_, ?_, ?_⟩
    · show hraw.vendor_number = _
      rw [g1]; rfl
    · show hraw.item = _
      rw [g2]; rfl
    · show hraw.item_number = _
      rw [g3]; rfl
    · show hraw.ship_date.map shipConv = _
      rw [g4]; rfl
    · show hraw.po_quantity = _
      rw [g5]; rfl

/-- C3 counterexample: with `Vendor Number` in rows 0 and 1 (values `A` and
`B`), the extractor records `B` — the value next to the *last* occurrence —
while the claim's first-match rule demands `A`. -/
theorem C3_header_counterexample :
    firstLabelVal cexC3grid "Vendor Number" = some (Cell.text "A") ∧
    get_header cexC3grid = some cexC3hdr ∧
    cexC3hdr.vendor_number = some (Cell.text "B") ∧
    Cell.text "B" ≠ Cell.text "A" := by
  decide

/-- Witness for C3 at a concrete grid on which `get_header` succeeds. -/
theorem C3_header_witness :
    get_header cexC3grid = some cexC3hdr ∧
    (cexC3hdr.vendor_number = lastLabelVal cexC3grid "Vendor Number" ∧
      cexC3hdr.item = firstLabelVal cexC3grid "Item" ∧
      cexC3hdr.item_number = lastLabelVal cexC3grid "Item Number" ∧
      cexC3hdr.ship_date = (lastLabelVal cexC3grid "Ship Date:").map shipConv ∧
      cexC3hdr.po_quantity = lastLabelVal cexC3grid "PO Quantity:") :=
  ⟨by decide, C3_header_amended cexC3grid cexC3hdr (by decide)⟩

/-! ### Claim C1: left/right chaining -/

theorem buildNode_fields (g : Grid) (col : Nat) (label : String) (pt : Cell)
    (pp : Option String) (step : Node × Cell × Option String)
    (h : buildNode g col label pt pp = some step) :
    step.1.right_type = cleanCell step.2.1 ∧ step.1.right_party = step.2.2 ∧
    (pp ≠ none → step.1.left_type = cleanCell pt ∧ step.1.left_party = pp) := by
  unfold buildNode at h
  cases elb : leftBox g col pt pp with
  | none => rw [elb] at h; exact Option.noConfusion h
  | some lb =>
  cases erb : rightBox g col with
  | none => rw [elb, erb] at h; exact Option.noConfusion h
  | some rb =>
  cases erem : nearest_value g 15 col with
  | none => rw [elb, erb, erem] at h; exact Option.noConfusion h
  | some rem0 =>
  cases edocs : docsRead g col with
  | none => rw [elb, erb, erem, edocs] at h; exact Option.noConfusion h
  | some docs0 =>
  rw [elb, erb, erem, edocs] at h
  obtain rfl := Option.some.inj h
  refine ⟨rfl, rfl, ?_⟩
  intro hpp
  have hsome : pp.isSome := Option.isSome_iff_ne_none.mpr hpp
  have hlb : leftBox g col pt pp = some (pt, pp) := by
    unfold leftBox; rw [if_pos hsome]
  rw [hlb] at elb
  obtain rfl := Option.some.inj elb
  exact ⟨rfl, rfl⟩

theorem nodesGo_chained (g : Grid) (as : List (Nat × String)) (pt : Cell)
    (pp : Option String) (ns : List Node) (h : nodesGo g as pt pp = some ns) :
    (∀ n0, ns.get? 0 = some n0 → pp ≠ none →
        n0.left_party = pp ∧ n0.left_type = cleanCell pt) ∧
    (∀ k n n2, ns.get? k = some n → ns.get? (k + 1) = some n2 → n.right_party ≠ none →
        n2.left_party = n.right_party ∧ n2.left_type = n.right_type) := by
  induction as generalizing pt pp ns with
  | nil =>
    unfold nodesGo at h
    obtain rfl := Option.some.inj h
    exact ⟨fun n0 h0 => Option.noConfusion h0, fun k n n2 hk => Option.noConfusion hk⟩
  | cons a rest ih =>
    obtain ⟨col, label⟩ := a
    cases estep : buildNode g col label pt pp with
    | none => simp only [nodesGo, estep] at h; exact Option.noConfusion h
    | some step =>
    simp only [nodesGo, estep] at h
    cases ens : nodesGo g rest step.2.1 step.2.2 with
    | none => rw [ens] at h; exact Option.noConfusion h
    | some ns2 =>
    rw [ens] at h
    obtain rfl := Option.some.inj h
    obtain ⟨hrt, hrp, hleft⟩ := buildNode_fields g col label pt pp step estep
    obtain ⟨ihhead, ihpairs⟩ := ih step.2.1 step.2.2 ns2 ens
    constructor
    · intro n0 h0 hpp
      obtain rfl := Option.some.inj h0
      exact ⟨(hleft hpp).2, (hleft hpp).1⟩
    · intro k n n2 hk hk2 hr
      cases k with
      | zero =>
        obtain rfl := Option.some.inj hk
        have h2 : ns2.get? 0 = some n2 := hk2
        have hne : step.2.2 ≠ none := by rw [hrp] at hr; exact hr
        obtain ⟨hl1, hl2⟩ := ihhead n2 h2 hne
        exact ⟨by rw [hl1, hrp], by rw [hl2, hrt]⟩
      | succ k =>
        exact ihpairs k n n2 hk hk2 hr

/-- C1 (corrected): a node after the first copies `left_type`/`left_party`
from the immediately preceding node's `right_type`/`right_party` *only
when the preceding node's right party is non-null (truthy)*; when the
preceding right party is null, the node's left box is read directly from
the grid instead, so the chaining equality is guaranteed only under that
premise. -/
theorem C1_chain_amended (g : Grid) (ns : List Node) (k : Nat) (n n2 : Node)
    (h : get_nodes g = some ns) (hk : ns.get? k = some n)
    (hk2 : ns.get? (k + 1) = some n2) (hr : n.right_party ≠ none) :
    n2.left_party = n.right_party ∧ n2.left_type = n.right_type := by
  unfold get_nodes at h
  cases ea : anchorScan g with
  | none => rw [ea] at h; exact Option.noConfusion h
  | some as =>
    rw [ea] at h
    exact (nodesGo_chained g as Cell.empty none ns h).2 k n n2 hk hk2 hr

/-- C1 counterexample: on a grid whose first anchor has a blank right box
and whose second anchor carries its own left-box data, the second node's
`left_party` is read directly (`"ABC, X City"`) and differs from the first
node's null `right_party`; its `left_type` (`"Supplier"`) likewise differs
from the first node's null `right_type` — the uniform chaining claim fails
when the preceding right party is absent. -/
theorem C1_chain_counterexample :
    get_nodes cexC1grid = some [cexC1node0, cexC1node1] ∧
    cexC1node1.left_party ≠ cexC1node0.right_party ∧
    cexC1node1.left_type ≠ cexC1node0.right_type := by
  decide

/-- Witness for C1 at a concrete grid with a populated right box. -/
theorem C1_chain_witness :
    get_nodes wC1grid = some [wC1node0, wC1node1] ∧
    wC1node0.right_party ≠ none ∧
    (wC1node1.left_party = wC1node0.right_party ∧
      wC1node1.left_type = wC1node0.right_type) :=
  ⟨by decide, by decide,
    C1_chain_amended wC1grid [wC1node0, wC1node1] 0 wC1node0 wC1node1
      (by decide) (by decide) (by decide) (by decide)⟩

/-! ### Claim C4: detail block shape -/

theorem natPadChars_ne_nil (k n : Nat) : natPadChars k n ≠ [] := by
  unfold natPadChars
  simp [List.append_eq_nil, natDigits_ne_nil]

theorem dateChars_ne_nil (d : PyDate) : dateChars d ≠ [] := by
  unfold dateChars
  simp [List.append_eq_nil, natPadChars_ne_nil]

theorem dateFmt_ne_empty (d : PyDate) : dateFmt d ≠ "" := by
  unfold dateFmt
  rw [ne_eq, strMk_eq_empty_iff]
  exact dateChars_ne_nil d

theorem looksLikeDate_text_strip_ne (s : String)
    (h : looksLikeDate (Cell.text s) = true) : pyStrip s ≠ "" := by
  have h2 := h
  unfold looksLikeDate at h2
  simp only [Bool.and_eq_true, decide_eq_true_eq] at h2
  exact h2.1.1

theorem detailDateGo_ne (g : Grid) (col : Nat) (rows : List Nat) :
    detailDateGo g col rows ≠ "" := by
  induction rows with
  | nil => simp [detailDateGo]
  | cons r rest ih =>
    unfold detailDateGo
    cases hc : g.cell r col with
    | date d => exact dateFmt_ne_empty d
    | text s =>
      show (if looksLikeDate (Cell.text s) = true then pyStrip (pyStr (Cell.text s))
          else detailDateGo g col rest) ≠ ""
      by_cases hl : looksLikeDate (Cell.text s) = true
      · rw [if_pos hl]
        exact looksLikeDate_text_strip_ne s hl
      · rw [if_neg hl]
        exact ih
    | empty =>
      show (if looksLikeDate Cell.empty = true then pyStrip (pyStr Cell.empty)
          else detailDateGo g col rest) ≠ ""
      rw [if_neg (by decide)]
      exact ih
    | num m e =>
      show (if looksLikeDate (Cell.num m e) = true then pyStrip (pyStr (Cell.num m e))
          else detailDateGo g col rest) ≠ ""
      rw [if_neg (by simp [looksLikeDate])]
      exact ih

theorem collectGo_snd_ne (cells : List Cell) (t : Option String) (ds : List String)
    (hds : ∀ x ∈ ds, x ≠ "") : ∀ x ∈ (collectGo cells t ds).2, x ≠ "" := by
  induction cells generalizing t ds with
  | nil => exact hds
  | cons c rest ih =>
    cases c with
    | text s =>
      by_cases hb : pyStrip s = ""
      · simpa [collectGo, hb] using hds
      · by_cases hr : (t.isNone && subStr "record" (lowerStr (pyStrip s))) = true
        · simp only [collectGo, hb, if_neg hb, hr, if_true]
          exact ih _ _ hds
        · simp only [collectGo, hb, if_neg hb, hr, Bool.false_eq_true, if_false]
          apply ih
          intro x hx
          rcases List.mem_append.mp hx with h1 | h1
          · exact hds x h1
          · rcases List.mem_singleton.mp h1 with rfl
            exact hb
    | empty => exact hds
    | num m e => exact hds
    | date d => exact hds

theorem collectGo_fst_ne (cells : List Cell) (t : Option String) (ds : List String)
    (ht : ∀ y, t = some y → y ≠ "") :
    ∀ y, (collectGo cells t ds).1 = some y → y ≠ "" := by
  induction cells generalizing t ds with
  | nil => exact ht
  | cons c rest ih =>
    cases c with
    | text s =>
      by_cases hb : pyStrip s = ""
      · simpa [collectGo, hb] using ht
      · by_cases hr : (t.isNone && subStr "record" (lowerStr (pyStrip s))) = true
        · simp only [collectGo, hb, if_neg hb, hr, if_true]
          apply ih
          intro y hy
          rcases Option.some.inj hy with rfl
          exact hb
        · simp only [collectGo, hb, if_neg hb, hr, Bool.false_eq_true, if_false]
          exact ih _ _ ht
    | empty => exact ht
    | num m e => exact ht
    | date d => exact ht

theorem get_detail_blocks_eq_nofb (g : Grid) :
    get_detail_blocks g = get_detail_blocks_nofb g := by
  unfold get_detail_blocks get_detail_blocks_nofb
  simp only [detailAt_eq_nofb]

theorem detailAtNoFb_props (g : Grid) (col row : Nat) (b : DetailBlock)
    (h : detailAtNoFb g col row = some b) :
    b.date ≠ "" ∧ (∀ s ∈ b.documents, s ≠ "") ∧
    (∀ s, b.doc_title = some s → s ≠ "") ∧
    (b.doc_title ≠ none ∨ b.documents ≠ []) := by
  cases hc : g.cell row col with
  | text cs =>
    simp only [detailAtNoFb, hc] at h
    by_cases ht : isTitle (pyStrip cs) = true
    · rw [if_pos ht] at h
      by_cases hemp : (collectDocs g col row).1 = none ∧ (collectDocs g col row).2 = []
      · rw [if_pos hemp] at h; exact Option.noConfusion h
      · rw [if_neg hemp] at h
        obtain rfl := Option.some.inj h
        refine ⟨detailDateGo_ne g col _, ?_, ?_, ?_⟩
        · exact collectGo_snd_ne _ none [] (by intro x hx; cases hx)
        · exact collectGo_fst_ne _ none [] (by intro y hy; cases hy)
        · exact not_and_or.mp hemp
    · rw [if_neg ht] at h; exact Option.noConfusion h
  | empty => simp only [detailAtNoFb, hc] at h; exact Option.noConfusion h
  | num m e => simp only [detailAtNoFb, hc] at h; exact Option.noConfusion h
  | date d => simp only [detailAtNoFb, hc] at h; exact Option.noConfusion h

/-- C4 (corrected): a DetailBlock's `name` and `location` hold the raw cell
values one and two rows below the title — which may be numeric, NaN, or
date values, not only a string or null as the declared shape states — while
the remaining declared shape holds: `type` is a string, `date` is a
non-empty string with the `"none"` sentinel for absence, `doc_title` is
null or a non-empty string, `documents` is a list of non-empty strings, and
a block with neither a title nor documents is discarded. -/
theorem C4_shape_amended (g : Grid) (b : DetailBlock)
    (hb : b ∈ get_detail_blocks g) :
    b.date ≠ "" ∧ (∀ s ∈ b.documents, s ≠ "") ∧
    (∀ s, b.doc_title = some s → s ≠ "") ∧
    (b.doc_title ≠ none ∨ b.documents ≠ []) := by
  rw [get_detail_blocks_eq_nofb g] at hb
  unfold get_detail_blocks_nofb at hb
  rw [List.mem_flatten] at hb
  obtain ⟨inner, hinner, hbin⟩ := hb
  rw [List.mem_map] at hinner
  obtain ⟨col, _, rfl⟩ := hinner
  rw [List.mem_filterMap] at hbin
  obtain ⟨row, _, hrow⟩ := hbin
  exact detailAtNoFb_props g col row b hrow

/-- C4 counterexample: on a grid whose cell below a `(Manufacturer)` title
holds the number `5`, the emitted block's `name` is that numeric cell —
neither a string nor null, contradicting the declared shape. -/
theorem C4_shape_counterexample :
    (get_detail_blocks cexC4grid).map DetailBlock.name = [Cell.num 5 0] ∧
    cellIsStrOrNull (Cell.num 5 0) = false := by
  decide

/-- Witness for C4 at a concrete block. -/
theorem C4_shape_witness :
    cexC4block ∈ get_detail_blocks cexC4grid ∧
    (cexC4block.date ≠ "" ∧ (∀ s ∈ cexC4block.documents, s ≠ "") ∧
      (∀ s, cexC4block.doc_title = some s → s ≠ "") ∧
      (cexC4block.doc_title ≠ none ∨ cexC4block.documents ≠ [])) :=
  ⟨by decide, C4_shape_amended cexC4grid cexC4block (by decide)⟩

/-! ### Claims C7 and C8: per-anchor node field characterization -/

theorem buildNode_inv (g : Grid) (col : Nat) (label : String) (pt : Cell)
    (pp : Option String) (step : Node × Cell × Option String)
    (h : buildNode g col label pt pp = some step) :
    ∃ lb rb : Cell × Option String, ∃ rem0 : Option String, ∃ docs0 : List String,
      nearest_value g 15 col = some rem0 ∧ docsRead g col = some docs0 ∧
      step = (assembleNode label (g.cell 9 col) lb.1 rb.1 lb.2 rb.2 rem0 (qtyRaw g col)
                (searchDate g col) docs0, rb.1, rb.2) := by
  unfold buildNode at h
  cases elb : leftBox g col pt pp with
  | none => rw [elb] at h; exact Option.noConfusion h
  | some lb =>
  cases erb : rightBox g col with
  | none => rw [elb, erb] at h; exact Option.noConfusion h
  | some rb =>
  cases erem : nearest_value g 15 col with
  | none => rw [elb, erb, erem] at h; exact Option.noConfusion h
  | some rem0 =>
  cases edocs : docsRead g col with
  | none => rw [elb, erb, erem, edocs] at h; exact Option.noConfusion h
  | some docs0 =>
  rw [elb, erb, erem, edocs] at h
  exact ⟨lb, rb, rem0, docs0, rfl, rfl, (Option.some.inj h).symm⟩

theorem nodesGo_get? (g : Grid) (as : List (Nat × String)) (pt : Cell)
    (pp : Option String) (ns : List Node) (k : Nat) (col : Nat) (label : String)
    (h : nodesGo g as pt pp = some ns) (hk : as.get? k = some (col, label)) :
    ∃ n : Node, ∃ lt rt : Cell, ∃ lp rp rem0 : Option String, ∃ docs0 : List String,
      ns.get? k = some n ∧
      nearest_value g 15 col = some rem0 ∧
      docsRead g col = some docs0 ∧
      n = assembleNode label (g.cell 9 col) lt rt lp rp rem0 (qtyRaw g col)
            (searchDate g col) docs0 := by
  induction as generalizing pt pp ns k with
  | nil => cases hk
  | cons a rest ih =>
    obtain ⟨c0, l0⟩ := a
    cases estep : buildNode g c0 l0 pt pp with
    | none => simp only [nodesGo, estep] at h; exact Option.noConfusion h
    | some step =>
    simp only [nodesGo, estep] at h
    cases ens : nodesGo g rest step.2.1 step.2.2 with
    | none => rw [ens] at h; exact Option.noConfusion h
    | some ns2 =>
    rw [ens] at h
    obtain rfl := Option.some.inj h
    cases k with
    | zero =>
      have hk0 := Option.some.inj hk
      rw [Prod.mk.injEq] at hk0
      obtain ⟨rfl, rfl⟩ := hk0
      obtain ⟨lb, rb, rem0, docs0, hrem, hdocs, hstep⟩ :=
        buildNode_inv g c0 l0 pt pp step estep
      refine ⟨step.1, lb.1, rb.1, lb.2, rb.2, rem0, docs0, rfl, hrem, hdocs, ?_⟩
      rw [hstep]
    | succ k =>
      obtain ⟨n, lt, rt, lp, rp, rem0, docs0, hget, hrem, hdocs, hn⟩ := ih _ _ _ _ ens hk
      exact ⟨n, lt, rt, lp, rp, rem0, docs0, hget, hrem, hdocs, hn⟩

theorem dateInRow_ne (g : Grid) (r : Nat) (cols : List Nat) (s : String)
    (h : dateInRow g r cols = some s) : s ≠ "" := by
  induction cols with
  | nil => exact Option.noConfusion h
  | cons c rest ih =>
    unfold dateInRow at h
    cases hc : g.cell r c with
    | date d =>
      rw [hc] at h
      obtain rfl := Option.some.inj h
      exact dateFmt_ne_empty d
    | text t =>
      rw [hc] at h
      have h2 : (if looksLikeDate (Cell.text t) = true
          then some (pyStrip (pyStr (Cell.text t)))
          else dateInRow g r rest) = some s := h
      by_cases hl : looksLikeDate (Cell.text t) = true
      · rw [if_pos hl] at h2
        obtain rfl := Option.some.inj h2
        exact looksLikeDate_text_strip_ne t hl
      · rw [if_neg hl] at h2
        exact ih h2
    | empty =>
      rw [hc] at h
      have h2 : (if looksLikeDate Cell.empty = true then some (pyStrip (pyStr Cell.empty))
          else dateInRow g r rest) = some s := h
      rw [if_neg (by decide)] at h2
      exact ih h2
    | num m e =>
      rw [hc] at h
      have h2 : (if looksLikeDate (Cell.num m e) = true
          then some (pyStrip (pyStr (Cell.num m e)))
          else dateInRow g r rest) = some s := h
      rw [if_neg (by simp [looksLikeDate])] at h2
      exact ih h2

theorem searchDateGo_ne (g : Grid) (col : Nat) (rows : List Nat) :
    searchDateGo g col rows ≠ "" := by
  induction rows with
  | nil => simp [searchDateGo]
  | cons r rest ih =>
    unfold searchDateGo
    cases hd : dateInRow g r (dateCols g col) with
    | none => exact ih
    | some s =>
      show (if s ≠ "none" then s else searchDateGo g col rest) ≠ ""
      by_cases hs : s ≠ "none"
      · rw [if_pos hs]
        exact dateInRow_ne g r _ s hd
      · rw [if_neg hs]
        exact ih

theorem searchDate_ne (g : Grid) (col : Nat) : searchDate g col ≠ "" :=
  searchDateGo_ne g col _

theorem assembleNode_date_remarks (label : String) (material lt rt : Cell)
    (lp rp rem0 : Option String) (rawQty : Cell) (d0 : String) (docs0 : List String)
    (hd0 : d0 ≠ "") :
    ((assembleNode label material lt rt lp rp rem0 rawQty d0 docs0).date =
      if dateNarrative d0 = true then "none" else d0) ∧
    (assembleNode label material lt rt lp rp rem0 rawQty d0 docs0).date ≠ "" ∧
    ((assembleNode label material lt rt lp rp rem0 rawQty d0 docs0).remarks =
      if dateNarrative d0 = true ∧ rem0 = none then some (narrativeText d0) else rem0) := by
  have hdate : (assembleNode label material lt rt lp rp rem0 rawQty d0 docs0).date =
      (let d1 := if 40 < d0.length then "none" else d0
       let s := pyStrip d1
       if (s ≠ "" && (subStr "goods are shipped" (lowerStr s) || decide (40 < s.length)))
          = true
       then "none" else d1) := rfl
  have hrem : (assembleNode label material lt rt lp rp rem0 rawQty d0 docs0).remarks =
      (let rem1 := if 40 < d0.length then (if rem0 = none then some d0 else rem0) else rem0
       let d1 := if 40 < d0.length then "none" else d0
       let s := pyStrip d1
       if (s ≠ "" && (subStr "goods are shipped" (lowerStr s) || decide (40 < s.length)))
          = true
       then (if rem1 = none then some s else rem1) else rem1) := rfl
  rw [hdate, hrem]
  by_cases h40 : 40 < d0.length
  · simp only [if_pos h40]
    have hnarr : dateNarrative d0 = true := by
      unfold dateNarrative
      simp [h40]
    rw [hnarr]
    have hs : pyStrip "none" = "none" := by decide
    rw [hs]
    have hfire : (("none" : String) ≠ "" &&
        (subStr "goods are shipped" (lowerStr "none") ||
          decide (40 < ("none" : String).length))) = false := by decide
    rw [hfire]
    simp only [Bool.false_eq_true, if_false]
    refine ⟨by simp, by simp, ?_⟩
    by_cases hr : rem0 = none <;> simp [hr, narrativeText, h40]
  · simp only [if_neg h40]
    have hlen : decide (40 < (pyStrip d0).length) = false := by
      have h1 := pyStrip_length_le d0
      simp only [decide_eq_false_iff_not, not_lt]
      omega
    by_cases hph : subStr "goods are shipped" (lowerStr (pyStrip d0)) = true
    · have hsne : pyStrip d0 ≠ "" := by
        intro he
        rw [he] at hph
        rw [show lowerStr "" = "" from rfl] at hph
        rw [subStr_empty_hay _ (by decide)] at hph
        cases hph
      have hfire : ((pyStrip d0 ≠ "") &&
          (subStr "goods are shipped" (lowerStr (pyStrip d0)) ||
            decide (40 < (pyStrip d0).length))) = true := by
        simp [hsne, hph]
      rw [hfire]
      have hnarr : dateNarrative d0 = true := by
        unfold dateNarrative
        simp [hph]
      rw [hnarr]
      simp only [if_true]
      refine ⟨by simp, by simp, ?_⟩
      by_cases hr : rem0 = none <;> simp [hr, narrativeText, h40]
    · have hph2 : subStr "goods are shipped" (lowerStr (pyStrip d0)) = false := by
        simpa using hph
      have hfire : ((pyStrip d0 ≠ "") &&
          (subStr "goods are shipped" (lowerStr (pyStrip d0)) ||
            decide (40 < (pyStrip d0).length))) = false := by
        rw [hph2, hlen]
        simp
      rw [hfire]
      have hnarr : dateNarrative d0 = false := by
        unfold dateNarrative
        simp only [Bool.or_eq_false_iff]
        constructor
        · simp only [decide_eq_false_iff_not, not_lt]; omega
        · exact hph2
      rw [hnarr]
      simp only [Bool.false_eq_true, if_false]
      exact ⟨trivial, hd0, by simp⟩

/-- C7 (confirmed): each node's resolved date is `searchDate` — the 3-row
window search from the fixed date row 16, checking columns `col`, `col-1`,
`col+1` in that order within each row, first native date (formatted
`YYYY-MM-DD`) or classifier-date-like text winning — demoted to the
`"none"` sentinel exactly when the resolved string exceeds 40 characters or
contains the phrase `goods are shipped`, in which case the narrative text
is moved into `remarks` only if the base remarks are still empty; the
node's date is never the empty string. -/
theorem C7_node_date (g : Grid) (as : List (Nat × String)) (ns : List Node)
    (k col : Nat) (label : String) (n : Node) (rem0 : Option String)
    (hA : anchorScan g = some as) (hg : get_nodes g = some ns)
    (hk : as.get? k = some (col, label)) (hn : ns.get? k = some n)
    (hr : nearest_value g 15 col = some rem0) :
    (n.date = if dateNarrative (searchDate g col) = true then "none"
      else searchDate g col) ∧
    n.date ≠ "" ∧
    (n.remarks = if dateNarrative (searchDate g col) = true ∧ rem0 = none
      then some (narrativeText (searchDate g col)) else rem0) := by
  unfold get_nodes at hg
  rw [hA] at hg
  obtain ⟨n2, lt, rt, lp, rp, rem02, docs0, hget, hrem, hdocs, hn2⟩ :=
    nodesGo_get? g as Cell.empty none ns k col label hg hk
  rw [hget] at hn
  obtain rfl := Option.some.inj hn
  rw [hrem] at hr
  obtain rfl := Option.some.inj hr
  rw [hn2]
  exact assembleNode_date_remarks label (g.cell 9 col) lt rt lp rp rem02
    (qtyRaw g col) (searchDate g col) docs0 (searchDate_ne g col)

/-- Witness for C7 at a concrete grid with a native date in the window. -/
theorem C7_node_date_witness :
    anchorScan wC7grid = some [(1, "Document Group 1")] ∧
    get_nodes wC7grid = some [wC7node] ∧
    ([(1, "Document Group 1")] : List (Nat × String)).get? 0 = some (1, "Document Group 1") ∧
    ([wC7node] : List Node).get? 0 = some wC7node ∧
    nearest_value wC7grid 15 1 = some none ∧
    ((wC7node.date = if dateNarrative (searchDate wC7grid 1) = true then "none"
        else searchDate wC7grid 1) ∧
      wC7node.date ≠ "" ∧
      (wC7node.remarks = if dateNarrative (searchDate wC7grid 1) = true ∧ (none : Option String) = none
        then some (narrativeText (searchDate wC7grid 1)) else none)) :=
  ⟨by decide, by decide, by decide, by decide, by decide,
    C7_node_date wC7grid [(1, "Document Group 1")] [wC7node] 0 1 "Document Group 1"
      wC7node none (by decide) (by decide) (by decide) (by decide) (by decide)⟩

theorem renderQtyCell_ne_empty (c : Cell) : renderQtyCell c ≠ "" := by
  cases c with
  | num m e =>
    show (if (10 : Int) ^ e ∣ m then intStr (m / (10 : Int) ^ e) else floatStr m e) ≠ ""
    by_cases hdvd : ((10 : Int) ^ e ∣ m)
    · rw [if_pos hdvd]; exact intStr_ne_empty _
    · rw [if_neg hdvd]; exact floatStr_ne_empty _ _
  | text s =>
    show (if (pyStrip s ≠ "" && s.toList.any pyIsDigit) = true then pyStrip s
        else "none") ≠ ""
    by_cases hg : (pyStrip s ≠ "" && s.toList.any pyIsDigit) = true
    · rw [if_pos hg]
      simp only [Bool.and_eq_true, decide_eq_true_eq] at hg
      exact hg.1
    · rw [if_neg hg]; decide
  | empty => decide
  | date d => simp [renderQtyCell]

theorem lower_strip_ne_none (s : String) (c0 : Char) (h0 : c0 ∈ s.toList)
    (hw : wsChar c0 = false) (hn : lowerChar c0 ∉ ("none" : String).toList) :
    lowerStr (pyStrip s) ≠ "none" := by
  intro he
  have h1 : c0 ∈ (pyStrip s).toList := by
    rw [pyStrip_toList]
    exact mem_stripListBoth _ _ _ h0 hw
  have h2 : lowerChar c0 ∈ (lowerStr (pyStrip s)).toList := by
    rw [lowerStr_toList]
    exact List.mem_map_of_mem _ h1
  rw [he] at h2
  exact hn h2

theorem strBeq_eq_decide (a b : String) : (a == b) = decide (a = b) := by
  by_cases h : a = b
  · simp [h]
  · simp [h]

theorem renderQty_none_cond (c : Cell) :
    ((renderQtyCell c == "") || (lowerStr (pyStrip (renderQtyCell c)) == "none"))
      = (renderQtyCell c == "none") := by
  by_cases h : renderQtyCell c = "none"
  · rw [h]; decide
  · rw [strBeq_eq_decide (renderQtyCell c) "none", decide_eq_false h]
    rw [strBeq_eq_decide (renderQtyCell c) "", decide_eq_false (renderQtyCell_ne_empty c)]
    rw [Bool.false_or]
    rw [strBeq_eq_decide, decide_eq_false_iff_not]
    cases c with
    | empty => exact absurd rfl h
    | date d => exact absurd rfl h
    | num m e =>
      show ¬ lowerStr (pyStrip (if (10 : Int) ^ e ∣ m then intStr (m / (10 : Int) ^ e)
          else floatStr m e)) = "none"
      by_cases hdvd : ((10 : Int) ^ e ∣ m)
      · rw [if_pos hdvd]
        obtain ⟨c0, hc0, hcd⟩ := intChars_has_digit (m / (10 : Int) ^ e)
        exact lower_strip_ne_none _ c0 hc0 (decChar_not_ws c0 hcd)
          (decChar_not_in_none c0 hcd)
      · rw [if_neg hdvd]
        exact lower_strip_ne_none _ '.' (floatChars_has_dot m e) (by decide) (by decide)
    | text s =>
      have hren : renderQtyCell (Cell.text s) =
          (if (pyStrip s ≠ "" && s.toList.any pyIsDigit) = true then pyStrip s
            else "none") := rfl
      rw [hren] at h ⊢
      by_cases hg : (pyStrip s ≠ "" && s.toList.any pyIsDigit) = true
      · rw [if_pos hg] at h ⊢
        simp only [Bool.and_eq_true, decide_eq_true_eq, List.any_eq_true] at hg
        obtain ⟨c0, hc0, hcd0⟩ := hg.2
        have hcd := pyIsDigit_mem c0 hcd0
        have h0 : c0 ∈ (pyStrip s).toList := by
          rw [pyStrip_toList]
          exact mem_stripListBoth _ _ _ hc0 (decChar_not_ws c0 hcd)
        exact lower_strip_ne_none _ c0 h0 (decChar_not_ws c0 hcd)
          (decChar_not_in_none c0 hcd)
      · rw [if_neg hg] at h
        exact absurd rfl h

theorem cellParts_ne (v : Cell) : ∀ x ∈ cellParts v, x ≠ "" := by
  intro x hx
  cases v with
  | text s =>
    have hx2 : x ∈ (if pyStrip s ≠ "" then
        ((splitOnNl s.toList).map fun l => pyStrip ⟨l⟩).filter (fun y => y ≠ "")
      else []) := hx
    by_cases hb : pyStrip s ≠ ""
    · rw [if_pos hb] at hx2
      have := (List.mem_filter.mp hx2).2
      simpa using this
    · rw [if_neg hb] at hx2
      cases hx2
  | empty => cases hx
  | num m e => cases hx
  | date d => cases hx

theorem docsGo_mem_ne (g : Grid) (col : Nat) (rows : List Nat) (ds : List String)
    (h : docsGo g col rows = some ds) : ∀ x ∈ ds, x ≠ "" := by
  induction rows generalizing ds with
  | nil =>
    unfold docsGo at h
    obtain rfl := Option.some.inj h
    intro x hx
    cases hx
  | cons r rest ih =>
    unfold docsGo at h
    cases hi : g.iat r col with
    | none => rw [hi] at h; exact Option.noConfusion h
    | some v =>
    rw [hi] at h
    cases hrec : docsGo g col rest with
    | none =>
      rw [hrec] at h
      exact Option.noConfusion h
    | some rest2 =>
    rw [hrec] at h
    obtain rfl := Option.some.inj h
    intro x hx
    rcases List.mem_append.mp hx with h1 | h1
    · exact cellParts_ne v x h1
    · exact ih rest2 hrec x h1

theorem assembleNode_qty (label : String) (material lt rt : Cell)
    (lp rp rem0 : Option String) (rawQty : Cell) (d0 : String) (docs0 : List String)
    (hdocs : ∀ x ∈ docs0, x ≠ "") :
    ((assembleNode label material lt rt lp rp rem0 rawQty d0 docs0).quantity =
      if promoSpec (renderQtyCell rawQty) docs0 = true then docs0.headD ""
      else renderQtyCell rawQty) ∧
    ((assembleNode label material lt rt lp rp rem0 rawQty d0 docs0).documents =
      if promoSpec (renderQtyCell rawQty) docs0 = true then docs0.tail else docs0) ∧
    (assembleNode label material lt rt lp rp rem0 rawQty d0 docs0).quantity ≠ "" := by
  have hq : (assembleNode label material lt rt lp rp rem0 rawQty d0 docs0).quantity =
      (if ((renderQtyCell rawQty == "" ||
            lowerStr (pyStrip (renderQtyCell rawQty)) == "none") &&
          !docs0.isEmpty && looksLikeQuantity (docs0.headD "")) = true
        then docs0.headD "" else renderQtyCell rawQty) := rfl
  have hd : (assembleNode label material lt rt lp rp rem0 rawQty d0 docs0).documents =
      (if ((renderQtyCell rawQty == "" ||
            lowerStr (pyStrip (renderQtyCell rawQty)) == "none") &&
          !docs0.isEmpty && looksLikeQuantity (docs0.headD "")) = true
        then docs0.tail else docs0) := rfl
  have hcond : ((renderQtyCell rawQty == "" ||
        lowerStr (pyStrip (renderQtyCell rawQty)) == "none") &&
      !docs0.isEmpty && looksLikeQuantity (docs0.headD ""))
      = promoSpec (renderQtyCell rawQty) docs0 := by
    unfold promoSpec
    rw [renderQty_none_cond]
  rw [hq, hd, hcond]
  refine ⟨rfl, rfl, ?_⟩
  by_cases hp : promoSpec (renderQtyCell rawQty) docs0 = true
  · rw [if_pos hp]
    unfold promoSpec at hp
    simp only [Bool.and_eq_true, Bool.not_eq_true'] at hp
    cases docs0 with
    | nil => cases hp.1.2
    | cons d rest => exact hdocs d (List.mem_cons_self _ _)
  · rw [if_neg hp]
    exact renderQtyCell_ne_empty rawQty

/-- C8 (corrected): each node's quantity is read only from the anchor's
own column in the fixed quantity row: an integral number renders as a
plain integer string (92.0 gives "92"), another number as its decimal
string, a text value containing a digit is used *trimmed of surrounding
whitespace* (not verbatim), and otherwise the quantity is the sentinel
`"none"`; when the rendering is still the sentinel and the first document
line is quantity-like per the classifier, that line is promoted into the
quantity and removed from the documents; the quantity is never the empty
string. -/
theorem C8_quantity_amended (g : Grid) (as : List (Nat × String)) (ns : List Node)
    (k col : Nat) (label : String) (n : Node) (docs0 : List String)
    (hA : anchorScan g = some as) (hg : get_nodes g = some ns)
    (hk : as.get? k = some (col, label)) (hn : ns.get? k = some n)
    (hd : docsRead g col = some docs0) :
    (n.quantity = if promoSpec (renderQtyCell (qtyRaw g col)) docs0 = true
      then docs0.headD "" else renderQtyCell (qtyRaw g col)) ∧
    (n.documents = if promoSpec (renderQtyCell (qtyRaw g col)) docs0 = true
      then docs0.tail else docs0) ∧
    n.quantity ≠ "" := by
  unfold get_nodes at hg
  rw [hA] at hg
  obtain ⟨n2, lt, rt, lp, rp, rem02, docs02, hget, hrem, hdocs, hn2⟩ :=
    nodesGo_get? g as Cell.empty none ns k col label hg hk
  rw [hget] at hn
  obtain rfl := Option.some.inj hn
  rw [hdocs] at hd
  obtain rfl := Option.some.inj hd
  rw [hn2]
  exact assembleNode_qty label (g.cell 9 col) lt rt lp rp rem02 (qtyRaw g col)
    (searchDate g col) docs02 (docsGo_mem_ne g col _ docs02 hdocs)

/-- C8 counterexample: a quantity cell holding the text `" 92 kg "` (with
surrounding blanks) yields the *stripped* quantity `"92 kg"`, not the
verbatim cell text — the claim's "used verbatim" is false. -/
theorem C8_quantity_counterexample :
    get_nodes cexC8grid = some [cexC8node] ∧
    cexC8node.quantity = "92 kg" ∧
    cexC8node.quantity ≠ " 92 kg " := by
  decide

/-- Witness for C8 at the same concrete grid. -/
theorem C8_quantity_witness :
    anchorScan cexC8grid = some [(1, "Document Group 1")] ∧
    get_nodes cexC8grid = some [cexC8node] ∧
    ([(1, "Document Group 1")] : List (Nat × String)).get? 0 = some (1, "Document Group 1") ∧
    ([cexC8node] : List Node).get? 0 = some cexC8node ∧
    docsRead cexC8grid 1 = some [] ∧
    ((cexC8node.quantity = if promoSpec (renderQtyCell (qtyRaw cexC8grid 1)) [] = true
        then ([] : List String).headD "" else renderQtyCell (qtyRaw cexC8grid 1)) ∧
      (cexC8node.documents = if promoSpec (renderQtyCell (qtyRaw cexC8grid 1)) [] = true
        then ([] : List String).tail else []) ∧
      cexC8node.quantity ≠ "") :=
  ⟨by decide, by decide, by decide, by decide, by decide,
    C8_quantity_amended cexC8grid [(1, "Document Group 1")] [cexC8node] 0 1
      "Document Group 1" cexC8node [] (by decide) (by decide) (by decide) (by decide)
      (by decide)⟩
